import Mathlib

/-!
A shallow embedding of the multi-tenant CRUD/DDL query engine of the AtlasHub
gateway (`src/gateway/src/services/crud.ts` and the public database routes in
`src/gateway/src/routes/public/db.ts`), together with theorems checking the
natural-language specification against it.

Strings from the TypeScript source are modelled as Lean `String`s; JS objects
(rows, mutation payloads) are modelled as ordered key/value association lists,
matching `Object.entries` iteration order.  Database effects are modelled by
explicit state passing: every statement handed to the driver is appended to a
log, and the tenant catalog is an abstract map updated by an abstract DDL
semantics.
-/

namespace AtlasHub

/-- Caller-supplied values are opaque to the engine; we model the textual form a
value would have if it were (wrongly) spliced into SQL. -/
abbrev Value := String

/-- A JS object as an ordered key/value list (`Object.entries` order). -/
abbrev Row := List (String × Value)

/-- The single-quote character `'` (code 39), written numerically. -/
def SQ : Char := Char.ofNat 39

/-- The dollar character `$` (code 36). -/
def dollar : Char := Char.ofNat 36

/-- The semicolon character `;` (code 59). -/
def semi : Char := Char.ofNat 59

/-- The dash character `-` (code 45). -/
def dash : Char := Char.ofNat 45

/-- The dot character `.` (code 46). -/
def dot : Char := Char.ofNat 46

/-- ASCII `A`-`Z`, i.e. the `A-Z` range of the JS regexes in `crud.ts`. -/
def isAsciiUpper (c : Char) : Bool := 65 ≤ c.toNat && c.toNat ≤ 90

/-- ASCII `a`-`z`. -/
def isAsciiLower (c : Char) : Bool := 97 ≤ c.toNat && c.toNat ≤ 122

/-- ASCII `0`-`9`, i.e. `\d` in the JS regexes. -/
def isAsciiDigit (c : Char) : Bool := 48 ≤ c.toNat && c.toNat ≤ 57

/-- The character class `[a-zA-Z_]` (first character of an identifier). -/
def isIdentStart (c : Char) : Bool := isAsciiUpper c || isAsciiLower c || c = '_'

/-- The character class `[a-zA-Z0-9_]`. -/
def isIdentChar (c : Char) : Bool := isIdentStart c || isAsciiDigit c

/-- `^[a-zA-Z_][a-zA-Z0-9_]*$` on a character list. -/
def identPatternL : List Char → Bool
| [] => false
| c :: cs => isIdentStart c && cs.all isIdentChar

/-- The JS regex test `/^[a-zA-Z_][a-zA-Z0-9_]*$/.test(name)` from
`validateIdentifier` in `src/gateway/src/services/crud.ts`. -/
def matchesIdentPattern (s : String) : Bool := identPatternL s.data

/-- ASCII lowering of one character; this is how `String.prototype.toLowerCase`
acts on the ASCII strings reaching the reserved-name check. -/
def lowerChar (c : Char) : Char :=
  if isAsciiUpper c then Char.ofNat (c.toNat + 32) else c

/-- `name.toLowerCase()` on ASCII strings. -/
def lowerStr (s : String) : String := String.mk (s.data.map lowerChar)

/-- `RESERVED_TABLE_NAMES` from `crud.ts`. -/
def RESERVED_TABLE_NAMES : List String :=
  ["pg_catalog", "information_schema", "pg_toast", "pg_temp"]

/-- Identifier kind, the `type` argument of `validateIdentifier` (either
`table` or `column`). -/
inductive IdKind
| table
| column
deriving DecidableEq, Repr

/-- String form of an `IdKind`, used in error messages. -/
def kindName : IdKind → String
| .table => "table"
| .column => "column"

/-- `validateIdentifier(name, type)` from `src/gateway/src/services/crud.ts`
(lines 58-73).  Throwing `BadRequestError` is modelled as returning `.error`. -/
def validateIdentifier (name : String) (kind : IdKind) : Except String Unit :=
  if name = "" then
    .error (kindName kind ++ " name is required")
  else if !matchesIdentPattern name then
    .error ("Invalid " ++ kindName kind ++ " name: " ++ name)
  else if name.length > 63 then
    .error (kindName kind ++ " name too long: max 63 characters")
  else if kind = IdKind.table && RESERVED_TABLE_NAMES.contains (lowerStr name) then
    .error (kindName kind ++ " name is reserved: " ++ name)
  else
    .ok ()

/-- `true` exactly on the non-throwing outcomes. -/
def exceptOk {ε α : Type} : Except ε α → Bool
| .ok _ => true
| .error _ => false

/-- One decimal digit as a character. -/
def digitChar (n : Nat) : Char :=
  if n = 0 then '0' else if n = 1 then '1' else if n = 2 then '2' else if n = 3 then '3'
  else if n = 4 then '4' else if n = 5 then '5' else if n = 6 then '6' else if n = 7 then '7'
  else if n = 8 then '8' else '9'

/-- Fueled helper for `natChars` (structural recursion on the fuel, so that
concrete renderings evaluate by `rfl` and `decide`). -/
def natCharsAux : Nat → Nat → List Char
| 0, _ => []
| fuel + 1, n =>
  if n < 10 then [digitChar n]
  else natCharsAux fuel (n / 10) ++ [digitChar (n % 10)]

/-- Decimal rendering of a natural number, most significant digit first; this is
how a JS number such as `paramIndex` renders inside a template literal. -/
def natChars (n : Nat) : List Char := natCharsAux (n + 1) n

/-- Decimal rendering as a string. -/
def natStr (n : Nat) : String := String.mk (natChars n)

/-- Decimal rendering of a JS integer (possibly negative). -/
def intStr (n : Int) : String :=
  if n < 0 then "-" ++ natStr n.natAbs else natStr n.natAbs

/-- `Array.prototype.join(sep)`. -/
def joinSep (sep : String) : List String → String
| [] => ""
| [x] => x
| x :: y :: rest => x ++ sep ++ joinSep sep (y :: rest)

/-- Identifier quoting `"${name}"` as used throughout `crud.ts`. -/
def quoteId (name : String) : String := "\"" ++ name ++ "\""

/-- A positional placeholder `$i`. -/
def placeholder (i : Nat) : String := "$" ++ natStr i

/-- `ALLOWED_DATA_TYPES` from `crud.ts`. -/
def ALLOWED_DATA_TYPES : List String :=
  ["text", "varchar", "char", "integer", "int", "bigint", "smallint", "serial",
   "bigserial", "boolean", "bool", "timestamp", "timestamptz", "date", "time",
   "timetz", "uuid", "json", "jsonb", "numeric", "decimal", "real",
   "double precision", "float", "bytea"]

/-- ASCII whitespace for the purposes of trimming and of `parseInt` (space,
tab, newline, carriage return, form feed, vertical tab). -/
def isAsciiSpace (c : Char) : Bool :=
  c = ' ' || c.toNat = 9 || c.toNat = 10 || c.toNat = 13 || c.toNat = 12 || c.toNat = 11

/-- `String.prototype.trim` on a character list: strip whitespace from both
ends. -/
def asciiTrim (l : List Char) : List Char :=
  (((l.dropWhile isAsciiSpace).reverse).dropWhile isAsciiSpace).reverse

/-- The base-type normalization `col.type.toLowerCase().split(open-paren)[0].trim()`
from `crud.ts`: lowercase, keep the part before the first opening parenthesis, trim. -/
def baseTypeOf (t : String) : String :=
  String.mk (asciiTrim ((lowerStr t).data.takeWhile (fun c => ¬ c = '(')))

/-- The JS regex `^-?\d+(\.\d+)?$` without the optional leading minus:
a nonempty digit run, optionally followed by a dot and a nonempty digit run. -/
def numericLitCore (l : List Char) : Bool :=
  let ds := l.takeWhile isAsciiDigit
  let rest := l.dropWhile isAsciiDigit
  !ds.isEmpty &&
    (rest.isEmpty ||
      match rest with
      | c :: fs => c = dot && !fs.isEmpty && fs.all isAsciiDigit
      | [] => false)

/-- The JS regex test `/^-?\d+(\.\d+)?$/.test(defaultVal)` from `crud.ts`. -/
def numericLit (s : String) : Bool :=
  match s.data with
  | c :: rest => if c = dash then numericLitCore rest else numericLitCore (c :: rest)
  | [] => false

/-- Helper for `quotedStringLit`: the characters after the opening quote must be
quote-free and end with a closing quote. -/
def quotedTail : List Char → Bool
| [] => false
| [c] => c = SQ
| c :: c2 :: rest => !(c = SQ) && quotedTail (c2 :: rest)

/-- The JS regex test for a single-quoted string literal with no embedded quote
(regex: caret, quote, zero or more non-quote characters, quote, dollar) applied
to `defaultVal` in `crud.ts`. -/
def quotedStringLit (s : String) : Bool :=
  match s.data with
  | c :: c2 :: rest => c = SQ && quotedTail (c2 :: rest)
  | _ => false

/-- The default-value allowlist check inlined in `crudService.createTable`
(lines 357-373) and `crudService.addColumn` (lines 451-466) of `crud.ts`. -/
def isAllowedDefault (d : String) : Bool :=
  d = "now()" || d = "CURRENT_TIMESTAMP" || d = "gen_random_uuid()" ||
  d = "true" || d = "false" || numericLit d || quotedStringLit d

/-- Column metadata as populated by `crudService.getTables` from catalog
introspection rows. -/
structure ColumnInfo where
  name : String
  type : String
  nullable : Bool
  defaultValue : Option String
deriving DecidableEq, Repr

/-- `TableInfo`: one discovered base table and its columns. -/
structure TableInfo where
  tableName : String
  columns : List ColumnInfo
deriving DecidableEq, Repr

/-- The two per-tenant database roles. -/
inductive Role
| app
| owner
deriving DecidableEq, Repr

/-- One statement handed to the database driver
(`projectDb.queryAsApp` / `projectDb.queryAsOwner`). -/
structure Stmt where
  projectId : String
  role : Role
  sql : String
  params : List Value
deriving DecidableEq, Repr

/-- The gateway error taxonomy (`BadRequestError`, `NotFoundError`,
`ForbiddenError` in `src/gateway/src/lib/errors.ts`); throwing is modelled as
returning `.error`. -/
inductive AppError
| badRequest (msg : String)
| notFound (msg : String)
| forbidden (msg : String)
deriving DecidableEq, Repr

/-- `true` exactly when the outcome is a thrown `BadRequestError`. -/
def isBadRequest {α : Type} : Except AppError α → Bool
| .error (.badRequest _) => true
| _ => false

/-- The nine public filter operators (`in` is spelled `inOp`). -/
inductive FilterOp
| eq
| neq
| lt
| lte
| gt
| gte
| like
| ilike
| inOp
deriving DecidableEq, Repr

/-- A filter value: a single value, or the comma-split list of an `in` filter. -/
inductive FilterVal
| one (v : Value)
| many (vs : List Value)
deriving DecidableEq, Repr

/-- `ParsedFilter` from `@atlashub/shared` (spec section 3). -/
structure ParsedFilter where
  column : String
  op : FilterOp
  val : FilterVal
deriving DecidableEq, Repr

/-- Sort direction of a `ParsedOrder`. -/
inductive OrderDir
| asc
| desc
deriving DecidableEq, Repr

/-- `ParsedOrder` from `@atlashub/shared`. -/
structure ParsedOrder where
  column : String
  dir : OrderDir
deriving DecidableEq, Repr

/-- Projection spec: the wildcard or an explicit column list. -/
inductive SelectSpec
| star
| cols (cs : List String)
deriving DecidableEq, Repr

/-- Modelled from the spec: the operator-to-SQL mapping of section 4.4.  The
implementation lives in `src/gateway/src/lib/sql-builder.ts`, which is not
included under `src/`. -/
def opSql : FilterOp → String
| .eq => "="
| .neq => "<>"
| .lt => "<"
| .lte => "<="
| .gt => ">"
| .gte => ">="
| .like => "LIKE"
| .ilike => "ILIKE"
| .inOp => "IN"

/-- Placeholders `$start, $(start+1), ...` for `n` list elements. -/
def placeholdersFrom (start n : Nat) : List String :=
  match n with
  | 0 => []
  | m + 1 => placeholder start :: placeholdersFrom (start + 1) m

/-- Modelled from the spec: `buildWhereClause` fragments.  The implementation
lives in `src/gateway/src/lib/sql-builder.ts`, which is not included under
`src/`.  Per spec section 4.4, every value is appended to the parameter vector
and referenced in generated text only by positional placeholder; `in` uses one
placeholder per list element; columns are identifier-quoted. -/
def buildWhereParts (filters : List ParsedFilter) (start : Nat) :
    List String × List Value :=
  match filters with
  | [] => ([], [])
  | f :: rest =>
    match f.val with
    | .one v =>
      let r := buildWhereParts rest (start + 1)
      ((quoteId f.column ++ " " ++ opSql f.op ++ " " ++ placeholder start) :: r.1,
       v :: r.2)
    | .many vs =>
      let r := buildWhereParts rest (start + vs.length)
      ((quoteId f.column ++ " IN (" ++
          joinSep ", " (placeholdersFrom start vs.length) ++ ")") :: r.1,
       vs ++ r.2)

/-- Modelled from the spec: `buildWhereClause(filters, startParamIndex)` from
`src/gateway/src/lib/sql-builder.ts` (not included under `src/`): renders the
WHERE clause text plus the ordered parameter vector; an empty filter list
produces an empty clause. -/
def buildWhereClause (filters : List ParsedFilter) (start : Nat) :
    String × List Value :=
  let r := buildWhereParts filters start
  (if r.1.isEmpty then "" else "WHERE " ++ joinSep " AND " r.1, r.2)

/-- Modelled from the spec: `buildOrderClause(order)` from
`src/gateway/src/lib/sql-builder.ts` (not included under `src/`). -/
def buildOrderClause : Option ParsedOrder → String
| none => ""
| some o =>
  "ORDER BY " ++ quoteId o.column ++ " " ++
    (match o.dir with
     | .asc => "ASC"
     | .desc => "DESC")

/-- Modelled from the spec: `buildSelectColumns(select, allowedColumns)` from
`src/gateway/src/lib/sql-builder.ts` (not included under `src/`): the wildcard
renders as `*`; an explicit list renders the whitelisted columns
identifier-quoted. -/
def buildSelectColumns : SelectSpec → List String → String
| .star, _ => "*"
| .cols cs, allowed =>
  joinSep ", " ((cs.filter (fun c => allowed.contains c)).map quoteId)

/-- Query limits from `config.query` in `src/gateway/src/config/env.ts`. -/
structure QueryConfig where
  defaultRowsLimit : Int
  maxRowsPerQuery : Int
deriving DecidableEq, Repr

/-- The world the gateway acts on: the schema cache (`tableInfoCache` in
`crud.ts`), the live tenant catalogs, an abstract DDL semantics `ddlApply`
standing for what the tenant database does to its catalog when an owner-role
statement runs, an abstract DML responder `respond`, the ordered log of every
statement issued, the clock, and the query config. -/
structure GwState where
  cache : List (String × List TableInfo × Nat)
  catalog : String → List TableInfo
  ddlApply : String → List TableInfo → List TableInfo
  respond : Stmt → List Row
  log : List Stmt
  now : Nat
  config : QueryConfig

/-- `tableInfoCache.get(projectId)`. -/
def cacheGet (cache : List (String × List TableInfo × Nat)) (pid : String) :
    Option (List TableInfo × Nat) :=
  match cache.find? (fun e => e.1 = pid) with
  | some e => some e.2
  | none => none

/-- `tableInfoCache.set(projectId, ...)`. -/
def cacheSet (cache : List (String × List TableInfo × Nat)) (pid : String)
    (tables : List TableInfo) (ts : Nat) : List (String × List TableInfo × Nat) :=
  (pid, tables, ts) :: cache.filter (fun e => ¬ e.1 = pid)

/-- `tableInfoCache.delete(projectId)`. -/
def cacheDel (cache : List (String × List TableInfo × Nat)) (pid : String) :
    List (String × List TableInfo × Nat) :=
  cache.filter (fun e => ¬ e.1 = pid)

/-- `CACHE_TTL_MS` from `crud.ts`. -/
def CACHE_TTL_MS : Nat := 60000

/-- The catalog introspection query text issued by `crudService.getTables`
(built here without literal quote characters; `sqlQ s` is `s` wrapped in
single quotes). -/
def sqlQ (s : String) : String := String.mk (SQ :: s.data ++ [SQ])

/-- The introspection SQL of `crudService.getTables` (lines 82-100 of
`crud.ts`). -/
def introspectionSql : String :=
  "SELECT\n         c.table_name,\n         c.column_name,\n         c.data_type,\n         c.is_nullable,\n         c.column_default\n       FROM information_schema.columns c\n       JOIN information_schema.tables t ON c.table_name = t.table_name AND c.table_schema = t.table_schema\n       WHERE c.table_schema = " ++
  sqlQ "public" ++ " AND t.table_type = " ++ sqlQ "BASE TABLE" ++
  "\n       ORDER BY c.table_name, c.ordinal_position"

/-- `projectDb.queryAsApp(projectId, sql, params)`: logs the statement and asks
the abstract responder for the resulting rows. -/
def queryAsApp (pid sql : String) (params : List Value) (s : GwState) :
    List Row × GwState :=
  let st : Stmt := ⟨pid, Role.app, sql, params⟩
  (s.respond st, { s with log := s.log ++ [st] })

/-- `projectDb.queryAsOwner(projectId, sql)`: logs the statement and lets the
abstract DDL semantics update the tenant catalog. -/
def queryAsOwner (pid sql : String) (s : GwState) : GwState :=
  let st : Stmt := ⟨pid, Role.owner, sql, []⟩
  { s with
    log := s.log ++ [st],
    catalog := fun q => if q = pid then s.ddlApply sql (s.catalog q) else s.catalog q }

/-- The introspection performed by `crudService.getTables` on a cache miss:
issues the catalog query, publishes the snapshot into the cache. -/
def fetchTables (pid : String) (s : GwState) : List TableInfo × GwState :=
  let tables := s.catalog pid
  let st : Stmt := ⟨pid, Role.app, introspectionSql, []⟩
  (tables,
   { s with
     log := s.log ++ [st],
     cache := cacheSet s.cache pid tables s.now })

/-- `crudService.getTables(projectId)` (lines 76-122 of `crud.ts`): serve from
the cache when fresh, otherwise refetch from the catalog. -/
def getTables (pid : String) (s : GwState) : List TableInfo × GwState :=
  match cacheGet s.cache pid with
  | some (tables, ts) =>
    if s.now - ts < CACHE_TTL_MS then (tables, s) else fetchTables pid s
  | none => fetchTables pid s

/-- `crudService.clearCache(projectId)` (lines 307-313 of `crud.ts`). -/
def clearCache (pid : String) (s : GwState) : GwState :=
  { s with cache := cacheDel s.cache pid }

/-- The per-row accumulation loop of `crudService.insert` (lines 197-211 of
`crud.ts`): walk `Object.entries(row)`, reject a key that is not an allowed
column, otherwise collect the quoted column, the value, and the next
placeholder. -/
def insertRowBuild (allowed : List String) (row : Row) (paramIndex : Nat) :
    Except AppError (List String × List Value × List String) :=
  match row with
  | [] => .ok ([], [], [])
  | (col, v) :: rest =>
    if allowed.contains col then
      match insertRowBuild allowed rest (paramIndex + 1) with
      | .ok (cs, vs, ps) => .ok (quoteId col :: cs, v :: vs, placeholder paramIndex :: ps)
      | .error e => .error e
    else
      .error (.badRequest ("Invalid column: " ++ col))

/-- The INSERT template literal of `crudService.insert` (lines 213-217 of
`crud.ts`), whitespace included. -/
def insertSqlText (table : String) (cols ps : List String) (returning : Bool) :
    String :=
  "\n        INSERT INTO " ++ quoteId table ++ " (" ++ joinSep ", " cols ++
  ")\n        VALUES (" ++ joinSep ", " ps ++ ")\n        " ++
  (if returning then "RETURNING *" else "") ++ "\n      "

/-- The `returning` accumulation `if (returning && result.rows.length > 0)
results.push(result.rows[0])` of `crudService.insert`. -/
def nextAcc (returning : Bool) (acc rrows : List Row) : List Row :=
  match returning, rrows with
  | true, r :: _ => acc ++ [r]
  | _, _ => acc

/-- The execution loop of `crudService.insert` (lines 197-223 of `crud.ts`):
for each row, validate-and-build, then immediately execute one parameterized
INSERT; `returning` collects the first returned row of each statement. -/
def insertLoop (pid table : String) (allowed : List String) (rows : List Row)
    (returning : Bool) (acc : List Row) (s : GwState) :
    Except AppError (List Row) × GwState :=
  match rows with
  | [] => (.ok acc, s)
  | row :: rest =>
    match insertRowBuild allowed row 1 with
    | .error e => (.error e, s)
    | .ok (cols, vals, ps) =>
      let q := queryAsApp pid (insertSqlText table cols ps returning) vals s
      insertLoop pid table allowed rest returning (nextAcc returning acc q.1) q.2

/-- `crudService.insert(projectId, table, rows, returning)` (lines 181-226 of
`crud.ts`). -/
def crudInsert (pid table : String) (rows : List Row) (returning : Bool)
    (s : GwState) : Except AppError (List Row) × GwState :=
  let gt := getTables pid s
  match gt.1.find? (fun t => t.tableName = table) with
  | none => (.error (.notFound ("Table " ++ quoteId table ++ " not found")), gt.2)
  | some ti =>
    insertLoop pid table (ti.columns.map (fun c => c.name)) rows returning [] gt.2

/-- The SET-clause accumulation loop of `crudService.update` (lines 251-262 of
`crud.ts`): walk `Object.entries(values)`, reject unknown columns, collect
`"col" = $i` fragments and the values; returns the next parameter index as
well. -/
def updateSetBuild (allowed : List String) (values : Row) (paramIndex : Nat) :
    Except AppError (List String × List Value × Nat) :=
  match values with
  | [] => .ok ([], [], paramIndex)
  | (col, v) :: rest =>
    if allowed.contains col then
      match updateSetBuild allowed rest (paramIndex + 1) with
      | .ok (cs, vs, n) =>
        .ok ((quoteId col ++ " = " ++ placeholder paramIndex) :: cs, v :: vs, n)
      | .error e => .error e
    else
      .error (.badRequest ("Invalid column: " ++ col))

/-- The UPDATE template literal of `crudService.update` (lines 267-272 of
`crud.ts`), whitespace included. -/
def updateSqlText (table : String) (setClauses : List String)
    (whereClause : String) (returning : Bool) : String :=
  "\n      UPDATE " ++ quoteId table ++ "\n      SET " ++ joinSep ", " setClauses ++
  "\n      " ++ whereClause ++ "\n      " ++
  (if returning then "RETURNING *" else "") ++ "\n    "

/-- Find the first filter whose column is not allowed (the validation loops at
lines 150-156, 244-249 and 292-297 of `crud.ts`). -/
def firstBadFilter (allowed : List String) (filters : List ParsedFilter) :
    Option ParsedFilter :=
  filters.find? (fun f => !allowed.contains f.column)

/-- `crudService.update(projectId, table, values, filters, returning)`
(lines 228-276 of `crud.ts`). -/
def crudUpdate (pid table : String) (values : Row) (filters : List ParsedFilter)
    (returning : Bool) (s : GwState) : Except AppError (List Row) × GwState :=
  let gt := getTables pid s
  match gt.1.find? (fun t => t.tableName = table) with
  | none => (.error (.notFound ("Table " ++ quoteId table ++ " not found")), gt.2)
  | some ti =>
    let allowed := ti.columns.map (fun c => c.name)
    match firstBadFilter allowed filters with
    | some f => (.error (.badRequest ("Invalid filter column: " ++ f.column)), gt.2)
    | none =>
      match updateSetBuild allowed values 1 with
      | .error e => (.error e, gt.2)
      | .ok (setClauses, updateValues, nextIndex) =>
        let wc := buildWhereClause filters nextIndex
        let allValues := updateValues ++ wc.2
        let sql := updateSqlText table setClauses wc.1 returning
        let q := queryAsApp pid sql allValues gt.2
        (.ok (if returning then q.1 else []), q.2)

/-- `crudService.delete(projectId, table, filters)` (lines 278-305 of
`crud.ts`). -/
def crudDelete (pid table : String) (filters : List ParsedFilter) (s : GwState) :
    Except AppError Nat × GwState :=
  let gt := getTables pid s
  match gt.1.find? (fun t => t.tableName = table) with
  | none => (.error (.notFound ("Table " ++ quoteId table ++ " not found")), gt.2)
  | some ti =>
    let allowed := ti.columns.map (fun c => c.name)
    match firstBadFilter allowed filters with
    | some f => (.error (.badRequest ("Invalid filter column: " ++ f.column)), gt.2)
    | none =>
      let wc := buildWhereClause filters 1
      let sql := "DELETE FROM " ++ quoteId table ++ " " ++ wc.1
      let q := queryAsApp pid sql wc.2 gt.2
      (.ok q.1.length, q.2)

/-- A JS number as produced by `parseInt`: an integer or `NaN`. -/
inductive JsNumber
| nan
| int (n : Int)
deriving DecidableEq, Repr

/-- Digit-run accumulation for `parseIntJs`. -/
def digitsToNat (ds : List Char) : Nat :=
  ds.foldl (fun acc c => acc * 10 + (c.toNat - 48)) 0

/-- `parseInt(s, 10)`: skip leading whitespace, read an optional sign, then the
longest leading digit run; no digits means `NaN`; trailing garbage is ignored. -/
def parseIntJs (s : String) : JsNumber :=
  let l := s.data.dropWhile isAsciiSpace
  let signAndRest : Int × List Char :=
    match l with
    | c :: rest =>
      if c = dash then (-1, rest) else if c = '+' then (1, rest) else (1, l)
    | [] => (1, l)
  let ds := signAndRest.2.takeWhile isAsciiDigit
  if ds.isEmpty then .nan else .int (signAndRest.1 * (digitsToNat ds : Int))

/-- The route-level limit/offset extraction
`query.limit ? parseInt(query.limit, 10) : undefined` of the GET handler
(lines 92-93 of `src/gateway/src/routes/public/db.ts`); an absent or empty
query value is falsy and yields `undefined`. -/
def routeIntParam (q : Option String) : Option JsNumber :=
  match q with
  | none => none
  | some s => if s = "" then none else some (parseIntJs s)

/-- `options.limit || config.query.defaultRowsLimit` from `crudService.select`
(line 163 of `crud.ts`): `undefined`, `NaN` and `0` are all falsy in JS. -/
def limitOrDefault (lim : Option JsNumber) (d : Int) : Int :=
  match lim with
  | some (.int n) => if n = 0 then d else n
  | _ => d

/-- The effective limit `Math.min(options.limit || defaultRowsLimit,
maxRowsPerQuery)` of `crudService.select` (lines 162-165 of `crud.ts`). -/
def computeLimit (lim : Option JsNumber) (d m : Int) : Int :=
  min (limitOrDefault lim d) m

/-- `options.offset || 0` from `crudService.select` (line 166 of `crud.ts`). -/
def offsetOrZero (off : Option JsNumber) : Int :=
  match off with
  | some (.int n) => n
  | _ => 0

/-- The SELECT template literal of `crudService.select` (lines 168-174 of
`crud.ts`), whitespace included. -/
def selectSqlText (selectCols table whereClause orderClause : String)
    (limit offset : Int) : String :=
  "\n      SELECT " ++ selectCols ++ "\n      FROM " ++ quoteId table ++
  "\n      " ++ whereClause ++ "\n      " ++ orderClause ++
  "\n      LIMIT " ++ intStr limit ++ " OFFSET " ++ intStr offset ++ "\n    "

/-- `crudService.select(projectId, table, options)` (lines 124-179 of
`crud.ts`). -/
def crudSelect (pid table : String) (sel : SelectSpec) (order : Option ParsedOrder)
    (lim off : Option JsNumber) (filters : List ParsedFilter) (s : GwState) :
    Except AppError (List Row × Nat) × GwState :=
  let gt := getTables pid s
  match gt.1.find? (fun t => t.tableName = table) with
  | none => (.error (.notFound ("Table " ++ quoteId table ++ " not found")), gt.2)
  | some ti =>
    let allowed := ti.columns.map (fun c => c.name)
    match order.bind (fun o => if allowed.contains o.column then none else some o) with
    | some o => (.error (.badRequest ("Invalid order column: " ++ o.column)), gt.2)
    | none =>
      match firstBadFilter allowed filters with
      | some f => (.error (.badRequest ("Invalid filter column: " ++ f.column)), gt.2)
      | none =>
        let selectCols := buildSelectColumns sel allowed
        let wc := buildWhereClause filters 1
        let orderClause := buildOrderClause order
        let limit := computeLimit lim s.config.defaultRowsLimit s.config.maxRowsPerQuery
        let offset := offsetOrZero off
        let sql := selectSqlText selectCols table wc.1 orderClause limit offset
        let q := queryAsApp pid sql wc.2 gt.2
        (.ok (q.1, q.1.length), q.2)

/-- A DDL column definition (`ColumnDefinition` in `crud.ts`, lines 44-55).
Optional JS fields are `Option`s; `nullable` distinguishes an explicit `false`
from absence. -/
structure RefTarget where
  table : String
  column : String
deriving DecidableEq, Repr

/-- The `{name, type, nullable?, primaryKey?, unique?, defaultValue?,
references?}` shape. -/
structure ColumnDefinition where
  name : String
  type : String
  nullable : Option Bool
  primaryKey : Option Bool
  unique : Option Bool
  defaultValue : Option String
  references : Option RefTarget
deriving DecidableEq, Repr

/-- JS truthiness of an optional boolean field. -/
def optTrue : Option Bool → Bool
| some true => true
| _ => false

/-- Lift a `validateIdentifier` failure to a thrown `BadRequestError`. -/
def vIdent (name : String) (kind : IdKind) : Except AppError Unit :=
  match validateIdentifier name kind with
  | .ok _ => .ok ()
  | .error m => .error (.badRequest m)

/-- Constraint fragments (primary key, unique, foreign key) contributed by one
column after its definition fragment `def_` is complete (lines 375-392 of
`crud.ts`). -/
def finishColumnDef (col : ColumnDefinition) (def_ : String) :
    Except AppError (String × List String × List String × List String) :=
  let pks := if optTrue col.primaryKey then [quoteId col.name] else []
  let uqs := if optTrue col.unique then ["UNIQUE (" ++ quoteId col.name ++ ")"] else []
  match col.references with
  | some r =>
    match vIdent r.table IdKind.table with
    | .error e => .error e
    | .ok _ =>
      match vIdent r.column IdKind.column with
      | .error e => .error e
      | .ok _ =>
        .ok (def_, pks, uqs,
          ["FOREIGN KEY (" ++ quoteId col.name ++ ") REFERENCES " ++
           quoteId r.table ++ " (" ++ quoteId r.column ++ ")"])
  | none => .ok (def_, pks, uqs, [])

/-- The per-column body of the `createTable` loop (lines 340-392 of `crud.ts`):
validate the column identifier, the base type, and the optional default; build
the column definition fragment plus any constraint fragments contributed by
this column. -/
def buildColumnDef (col : ColumnDefinition) :
    Except AppError (String × List String × List String × List String) :=
  match vIdent col.name IdKind.column with
  | .error e => .error e
  | .ok _ =>
    if !ALLOWED_DATA_TYPES.contains (baseTypeOf col.type) then
      .error (.badRequest ("Invalid data type: " ++ col.type))
    else
      let base := quoteId col.name ++ " " ++ col.type
      let base := if col.nullable = some false then base ++ " NOT NULL" else base
      match col.defaultValue with
      | some d =>
        if isAllowedDefault d then
          finishColumnDef col (base ++ " DEFAULT " ++ d)
        else
          .error (.badRequest ("Invalid default value: " ++ d))
      | none => finishColumnDef col base

/-- The whole `createTable` column loop: accumulate `columnDefs`,
`primaryKeys`, `uniqueConstraints` and `foreignKeys` in order. -/
def buildColumnDefs (cols : List ColumnDefinition) :
    Except AppError (List String × List String × List String × List String) :=
  match cols with
  | [] => .ok ([], [], [], [])
  | col :: rest =>
    match buildColumnDef col with
    | .error e => .error e
    | .ok (d, pks, uqs, fks) =>
      match buildColumnDefs rest with
      | .error e => .error e
      | .ok (ds, pks2, uqs2, fks2) =>
        .ok (d :: ds, pks ++ pks2, uqs ++ uqs2, fks ++ fks2)

/-- The CREATE TABLE text assembly of lines 394-406 of `crud.ts`. -/
def createTableSqlText (tableName : String) (ifNotExists : Bool)
    (columnDefs primaryKeys uniques foreignKeys : List String) : String :=
  let withPk :=
    columnDefs ++
    (if primaryKeys.isEmpty then [] else ["PRIMARY KEY (" ++ joinSep ", " primaryKeys ++ ")"]) ++
    uniques ++ foreignKeys
  "CREATE TABLE " ++ (if ifNotExists then "IF NOT EXISTS " else "") ++
  quoteId tableName ++ " (\n  " ++ joinSep ",\n  " withPk ++ "\n)"

/-- `crudService.createTable(projectId, tableName, columns, ifNotExists)`
(lines 319-412 of `crud.ts`). -/
def createTable (pid tableName : String) (columns : List ColumnDefinition)
    (ifNotExists : Bool) (s : GwState) : Except AppError String × GwState :=
  match vIdent tableName IdKind.table with
  | .error e => (.error e, s)
  | .ok _ =>
    if columns.isEmpty then
      (.error (.badRequest "At least one column is required"), s)
    else if columns.length > 100 then
      (.error (.badRequest "Too many columns: max 100"), s)
    else
      match buildColumnDefs columns with
      | .error e => (.error e, s)
      | .ok (ds, pks, uqs, fks) =>
        let sql := createTableSqlText tableName ifNotExists ds pks uqs fks
        let s2 := queryAsOwner pid sql s
        (.ok tableName, clearCache pid s2)

/-- `crudService.dropTable` (lines 414-430 of `crud.ts`). -/
def dropTable (pid tableName : String) (ifExists cascade : Bool) (s : GwState) :
    Except AppError String × GwState :=
  match vIdent tableName IdKind.table with
  | .error e => (.error e, s)
  | .ok _ =>
    let sql := "DROP TABLE " ++ (if ifExists then "IF EXISTS " else "") ++
      quoteId tableName ++ (if cascade then " CASCADE" else "")
    let s2 := queryAsOwner pid sql s
    (.ok tableName, clearCache pid s2)

/-- The column-fragment assembly of `crudService.addColumn`
(lines 440-470 of `crud.ts`). -/
def addColumnDefText (column : ColumnDefinition) : Except AppError String :=
  if !ALLOWED_DATA_TYPES.contains (baseTypeOf column.type) then
    .error (.badRequest ("Invalid data type: " ++ column.type))
  else
    let base := quoteId column.name ++ " " ++ column.type
    let base := if column.nullable = some false then base ++ " NOT NULL" else base
    match column.defaultValue with
    | some d =>
      if isAllowedDefault d then
        .ok ((base ++ " DEFAULT " ++ d) ++ (if optTrue column.unique then " UNIQUE" else ""))
      else
        .error (.badRequest ("Invalid default value: " ++ d))
    | none => .ok (base ++ (if optTrue column.unique then " UNIQUE" else ""))

/-- `crudService.addColumn(projectId, tableName, column)` (lines 432-478 of
`crud.ts`). -/
def addColumn (pid tableName : String) (column : ColumnDefinition) (s : GwState) :
    Except AppError String × GwState :=
  match vIdent tableName IdKind.table with
  | .error e => (.error e, s)
  | .ok _ =>
    match vIdent column.name IdKind.column with
    | .error e => (.error e, s)
    | .ok _ =>
      match addColumnDefText column with
      | .error e => (.error e, s)
      | .ok d =>
        let sql := "ALTER TABLE " ++ quoteId tableName ++ " ADD COLUMN " ++ d
        let s2 := queryAsOwner pid sql s
        (.ok column.name, clearCache pid s2)

/-- `crudService.dropColumn` (lines 480-498 of `crud.ts`). -/
def dropColumn (pid tableName columnName : String) (ifExists cascade : Bool)
    (s : GwState) : Except AppError String × GwState :=
  match vIdent tableName IdKind.table with
  | .error e => (.error e, s)
  | .ok _ =>
    match vIdent columnName IdKind.column with
    | .error e => (.error e, s)
    | .ok _ =>
      let sql := "ALTER TABLE " ++ quoteId tableName ++ " DROP COLUMN " ++
        (if ifExists then "IF EXISTS " else "") ++ quoteId columnName ++
        (if cascade then " CASCADE" else "")
      let s2 := queryAsOwner pid sql s
      (.ok columnName, clearCache pid s2)

/-- `crudService.renameTable` (lines 500-514 of `crud.ts`). -/
def renameTable (pid oldName newName : String) (s : GwState) :
    Except AppError String × GwState :=
  match vIdent oldName IdKind.table with
  | .error e => (.error e, s)
  | .ok _ =>
    match vIdent newName IdKind.table with
    | .error e => (.error e, s)
    | .ok _ =>
      let sql := "ALTER TABLE " ++ quoteId oldName ++ " RENAME TO " ++ quoteId newName
      let s2 := queryAsOwner pid sql s
      (.ok newName, clearCache pid s2)

/-- `crudService.renameColumn` (lines 516-532 of `crud.ts`). -/
def renameColumn (pid tableName oldName newName : String) (s : GwState) :
    Except AppError String × GwState :=
  match vIdent tableName IdKind.table with
  | .error e => (.error e, s)
  | .ok _ =>
    match vIdent oldName IdKind.column with
    | .error e => (.error e, s)
    | .ok _ =>
      match vIdent newName IdKind.column with
      | .error e => (.error e, s)
      | .ok _ =>
        let sql := "ALTER TABLE " ++ quoteId tableName ++ " RENAME COLUMN " ++
          quoteId oldName ++ " TO " ++ quoteId newName
        let s2 := queryAsOwner pid sql s
        (.ok newName, clearCache pid s2)

/-- The update request body `{values, returning}` after `updateBodySchema`
parsing. -/
structure UpdateBody where
  values : Row
  returning : Bool
deriving DecidableEq, Repr

/-- The PATCH handler of `dbRoutes` (lines 129-160 of
`src/gateway/src/routes/public/db.ts`).  `tableOk` is the outcome of
`tableNameSchema.safeParse` (the schema itself lives in `@atlashub/shared`,
not under `src/`); `body` is the outcome of `updateBodySchema.safeParse`
(`none` for a malformed body); `filters` is the output of
`parseFilters(request.query)`. -/
def handlePatch (pid : String) (tableOk : Bool) (table : String)
    (body : Option UpdateBody) (filters : List ParsedFilter) (s : GwState) :
    Except AppError (List Row) × GwState :=
  if !tableOk then (.error (.badRequest "Invalid table name"), s)
  else
    match body with
    | none => (.error (.badRequest "Invalid request body"), s)
    | some b =>
      if filters.length = 0 then
        (.error (.badRequest "At least one filter is required for UPDATE"), s)
      else
        crudUpdate pid table b.values filters b.returning s

/-- The DELETE handler of `dbRoutes` (lines 163-182 of
`src/gateway/src/routes/public/db.ts`). -/
def handleDelete (pid : String) (tableOk : Bool) (table : String)
    (filters : List ParsedFilter) (s : GwState) :
    Except AppError Nat × GwState :=
  if !tableOk then (.error (.badRequest "Invalid table name"), s)
  else if filters.length = 0 then
    (.error (.badRequest "At least one filter is required for DELETE"), s)
  else
    crudDelete pid table filters s

/-- The GET handler of `dbRoutes` (lines 78-106 of
`src/gateway/src/routes/public/db.ts`): `select`, `order` and the filters are
the outputs of the query parsers (`src/gateway/src/lib/query-parser.ts`, not
under `src/`); `limS`, `offS` are the raw `limit` and `offset` query strings. -/
def handleGet (pid : String) (tableOk : Bool) (table : String) (sel : SelectSpec)
    (order : Option ParsedOrder) (limS offS : Option String)
    (filters : List ParsedFilter) (s : GwState) :
    Except AppError (List Row × Nat) × GwState :=
  if !tableOk then (.error (.badRequest "Invalid table name"), s)
  else
    crudSelect pid table sel order (routeIntParam limS) (routeIntParam offS) filters s

/-- A one-table catalog used by concrete witnesses: project `p` has table `t`
with a single text column `a`. -/
def sampleCatalog : String → List TableInfo :=
  fun pid => if pid = "p" then [⟨"t", [⟨"a", "text", true, none⟩]⟩] else []

/-- A concrete starting state used by witnesses: empty cache, empty log,
identity DDL semantics, a responder returning no rows, default limit 100 and
max 1000. -/
def sampleState : GwState :=
  { cache := []
    catalog := sampleCatalog
    ddlApply := fun _ cat => cat
    respond := fun _ => []
    log := []
    now := 0
    config := ⟨100, 1000⟩ }

/-- A row all of whose keys are schema columns (the per-row validation of
`crudService.insert`). -/
def rowValid (allowed : List String) (row : Row) : Bool :=
  row.all (fun kv => allowed.contains kv.1)

/-- The one parameterized INSERT statement `crudService.insert` executes for a
valid row. -/
def insertStmtFor (pid table : String) (returning : Bool) (row : Row) : Stmt :=
  ⟨pid, Role.app,
   insertSqlText table (row.map fun kv => quoteId kv.1)
     (placeholdersFrom 1 row.length) returning,
   row.map fun kv => kv.2⟩

/-- Adjacency relation for generated SQL text: every dollar sign is
immediately followed by a digit (it is the head of a positional placeholder),
so the text can never contain two adjacent dollar signs. -/
def metaSafeRel (a b : Char) : Prop := a = dollar → isAsciiDigit b = true

/-- Safety of a piece of generated SQL text with respect to the SQL
metacharacters of spec section 8: no single quote, no semicolon, no dash (so
no `--`), every dollar followed by a digit, and no trailing dollar. -/
def SqlTextSafe (l : List Char) : Prop :=
  (∀ c ∈ l, ¬ c = SQ ∧ ¬ c = semi ∧ ¬ c = dash) ∧
  l.Chain' metaSafeRel ∧
  (∀ c, l.getLast? = some c → ¬ c = dollar)

/-- `SqlTextSafe` on a string. -/
def SqlStrSafe (s : String) : Prop := SqlTextSafe s.data

/-- Decidable check that a fixed SQL fragment contains none of the four
metacharacters at all. -/
def fragOkB (l : List Char) : Bool :=
  l.all fun c => !(c == SQ) && !(c == semi) && !(c == dash) && !(c == dollar)

/-- A value containing one of the SQL metacharacter strings of spec
section 8: a single quote, a semicolon, `--`, or `$$`. -/
def hasSqlMeta (v : Value) : Prop :=
  SQ ∈ v.data ∨ semi ∈ v.data ∨
  [dash, dash] <:+: v.data ∨ [dollar, dollar] <:+: v.data

/-- The SET-clause fragments `"col" = $i` produced by `crudService.update`
for a payload, determined by the keys and the starting parameter index
alone. -/
def setFragsFrom : Row → Nat → List String
| [], _ => []
| (col, _) :: rest, idx =>
  (quoteId col ++ " = " ++ placeholder idx) :: setFragsFrom rest (idx + 1)

/-- The ordered parameter vector contributed by a filter list: each filter
appends its value (or, for `in`, its value list) in order. -/
def filterValuesOf : List ParsedFilter → List Value
| [] => []
| f :: rest =>
  (match f.val with
   | .one v => [v]
   | .many vs => vs) ++ filterValuesOf rest

/-- The numeric-literal shape of spec section 4.1, stated declaratively: an
optional minus sign, a nonempty digit run, optionally followed by a dot and
another nonempty digit run. -/
def NumericLitSpec (d : String) : Prop :=
  ∃ (neg : Bool) (ip : List Char) (fp : Option (List Char)),
    ip ≠ [] ∧ (∀ c ∈ ip, isAsciiDigit c = true) ∧
    (∀ f, fp = some f → (f ≠ [] ∧ ∀ c ∈ f, isAsciiDigit c = true)) ∧
    d.data = (if neg then [dash] else []) ++ ip ++
      (match fp with | none => [] | some f => dot :: f)

/-- The string-literal shape of spec section 4.1, stated declaratively: an
opening quote, quote-free content, a closing quote. -/
def StringLitSpec (d : String) : Prop :=
  ∃ mid : List Char, (∀ c ∈ mid, ¬ c = SQ) ∧ d.data = SQ :: (mid ++ [SQ])

/-- The closed set of allowed default expressions per spec section 4.1:
numeric literals, single-quoted string literals with no embedded quote, the
boolean literals, or one of the three zero-argument calls. -/
def DefaultExprSpec (d : String) : Prop :=
  d = "now()" ∨ d = "gen_random_uuid()" ∨ d = "CURRENT_TIMESTAMP" ∨
  d = "true" ∨ d = "false" ∨ NumericLitSpec d ∨ StringLitSpec d

/-! ## Theorems -/

theorem validateIdentifier_ok_iff (name : String) (kind : IdKind) :
    exceptOk (validateIdentifier name kind) = true ↔
      ¬ name = "" ∧ matchesIdentPattern name = true ∧ name.length ≤ 63 ∧
      (kind = IdKind.table → lowerStr name ∉ RESERVED_TABLE_NAMES) := by
  unfold validateIdentifier
  split_ifs with h1 h2 h3 h4
  · simp [exceptOk, h1]
  · simp [exceptOk]
    intro _ hp
    simp [hp] at h2
  · simp [exceptOk]
    omega
  · simp [exceptOk]
    intro _ _ _
    simp at h4
    exact h4
  · simp [exceptOk]
    refine ⟨h1, ?_, by omega, ?_⟩
    · cases hp : matchesIdentPattern name with
      | true => rfl
      | false => simp [hp] at h2
    · intro hk
      simp [hk] at h4
      exact h4


theorem isIdentStart_of_lowerChar {c : Char}
    (h : isIdentStart (lowerChar c) = true) : isIdentStart c = true := by
  by_cases hu : isAsciiUpper c = true
  · simp [isIdentStart, hu]
  · simpa [lowerChar, hu] using h

theorem isIdentChar_of_lowerChar {c : Char}
    (h : isIdentChar (lowerChar c) = true) : isIdentChar c = true := by
  by_cases hu : isAsciiUpper c = true
  · simp [isIdentChar, isIdentStart, hu]
  · simpa [lowerChar, hu] using h

theorem identPatternL_of_map_lower {l : List Char}
    (h : identPatternL (l.map lowerChar) = true) : identPatternL l = true := by
  cases l with
  | nil => simp [identPatternL] at h
  | cons c cs =>
    simp only [List.map_cons, identPatternL, Bool.and_eq_true] at h ⊢
    obtain ⟨h1, h2⟩ := h
    refine ⟨isIdentStart_of_lowerChar h1, ?_⟩
    rw [List.all_map] at h2
    rw [List.all_eq_true] at h2 ⊢
    intro x hx
    exact isIdentChar_of_lowerChar (h2 x hx)

theorem columnAcceptOfLower (w r : String) (hr : identPatternL r.data = true)
    (hlen : r.data.length ≤ 63) (hd : w.data.map lowerChar = r.data) :
    exceptOk (validateIdentifier w IdKind.column) = true := by
  apply (validateIdentifier_ok_iff w IdKind.column).mpr
  refine ⟨?_, ?_, ?_, ?_⟩
  · intro hw
    rw [hw] at hd
    simp only [List.map_nil] at hd
    · rw [← hd] at hr
      simp [identPatternL] at hr
  · exact identPatternL_of_map_lower (by rw [hd]; exact hr)
  · have hlw : w.length = w.data.length := rfl
    have hml : w.data.length = r.data.length := by
      rw [← hd]
      simp
    omega
  · intro hk
    cases hk

/-- C6: `validateIdentifier(name, kind)` rejects every empty string, every
name not matching the identifier regex, every name exceeding 63 characters,
and every table name equal to a reserved catalog namespace word; it accepts
`users` and rejects `users; DROP TABLE x`. -/
theorem C6_validateIdentifier_whitelist :
    (∀ kind, exceptOk (validateIdentifier "" kind) = false)
  ∧ (∀ name kind, matchesIdentPattern name = false →
      exceptOk (validateIdentifier name kind) = false)
  ∧ (∀ name kind, 63 < name.length →
      exceptOk (validateIdentifier name kind) = false)
  ∧ (∀ w, w ∈ RESERVED_TABLE_NAMES →
      exceptOk (validateIdentifier w IdKind.table) = false)
  ∧ exceptOk (validateIdentifier "users" IdKind.table) = true
  ∧ exceptOk (validateIdentifier "users; DROP TABLE x" IdKind.table) = false := by
  refine ⟨?_, ?_, ?_, ?_, by decide, by decide⟩
  · intro kind
    cases kind <;> decide
  · intro name kind h
    cases hok : exceptOk (validateIdentifier name kind) with
    | false => rfl
    | true =>
      have hc := (validateIdentifier_ok_iff name kind).mp hok
      rw [hc.2.1] at h
      cases h
  · intro name kind h
    cases hok : exceptOk (validateIdentifier name kind) with
    | false => rfl
    | true =>
      have hc := (validateIdentifier_ok_iff name kind).mp hok
      have := hc.2.2.1
      omega
  · intro w hw
    simp only [RESERVED_TABLE_NAMES, List.mem_cons, List.not_mem_nil, or_false] at hw
    rcases hw with rfl | rfl | rfl | rfl <;> decide

/-- Witness for C6 at a concrete malformed name. -/
theorem C6_validateIdentifier_whitelist_witness :
    matchesIdentPattern "9bad" = false ∧
    exceptOk (validateIdentifier "9bad" IdKind.column) = false :=
  ⟨by decide, C6_validateIdentifier_whitelist.2.1 "9bad" IdKind.column (by decide)⟩

/-- C10: the reserved-catalog-name rejection applies only when the kind is
`table` and compares case-insensitively: any string whose ASCII lowering is a
reserved catalog namespace word is rejected as a table name but accepted as a
column name. -/
theorem C10_reserved_names_table_only :
    ∀ w : String, lowerStr w ∈ RESERVED_TABLE_NAMES →
      exceptOk (validateIdentifier w IdKind.table) = false ∧
      exceptOk (validateIdentifier w IdKind.column) = true := by
  intro w hw
  constructor
  · cases hok : exceptOk (validateIdentifier w IdKind.table) with
    | false => rfl
    | true =>
      have hc := (validateIdentifier_ok_iff w IdKind.table).mp hok
      exact absurd hw (hc.2.2.2 rfl)
  · have hd : w.data.map lowerChar = (lowerStr w).data := rfl
    simp only [RESERVED_TABLE_NAMES, List.mem_cons, List.not_mem_nil, or_false] at hw
    rcases hw with h | h | h | h
    · exact columnAcceptOfLower w "pg_catalog" (by decide) (by decide) (by rw [hd, h])
    · exact columnAcceptOfLower w "information_schema" (by decide) (by decide) (by rw [hd, h])
    · exact columnAcceptOfLower w "pg_toast" (by decide) (by decide) (by rw [hd, h])
    · exact columnAcceptOfLower w "pg_temp" (by decide) (by decide) (by rw [hd, h])

/-- Witness for C10 at a mixed-case reserved word. -/
theorem C10_reserved_names_table_only_witness :
    lowerStr "PG_Catalog" ∈ RESERVED_TABLE_NAMES ∧
    exceptOk (validateIdentifier "PG_Catalog" IdKind.table) = false ∧
    exceptOk (validateIdentifier "PG_Catalog" IdKind.column) = true := by
  have h := C10_reserved_names_table_only "PG_Catalog" (by decide)
  exact ⟨by decide, h.1, h.2⟩


/-- Errors produced by `vIdent` are always `BadRequestError`s. -/
theorem vIdent_error_badRequest (name : String) (kind : IdKind) (e : AppError)
    (h : vIdent name kind = .error e) : ∃ m, e = AppError.badRequest m := by
  unfold vIdent at h
  cases hv : validateIdentifier name kind with
  | ok u => rw [hv] at h; cases h
  | error m =>
    rw [hv] at h
    cases h
    exact ⟨m, rfl⟩

/-- C2: a public update or delete request whose parsed filter list is empty
always yields a BadRequest error and issues zero database statements, for
every table. -/
theorem C2_zero_filter_mutation_rejected :
    ∀ pid tableOk table body filters s, filters = [] →
      (isBadRequest (handlePatch pid tableOk table body filters s).1 = true ∧
       (handlePatch pid tableOk table body filters s).2.log = s.log) ∧
      (isBadRequest (handleDelete pid tableOk table filters s).1 = true ∧
       (handleDelete pid tableOk table filters s).2.log = s.log) := by
  intro pid tableOk table body filters s h
  subst h
  refine ⟨?_, ?_⟩
  · cases tableOk with
    | false => exact ⟨rfl, rfl⟩
    | true =>
      cases body with
      | none => exact ⟨rfl, rfl⟩
      | some b => exact ⟨rfl, rfl⟩
  · cases tableOk with
    | false => exact ⟨rfl, rfl⟩
    | true => exact ⟨rfl, rfl⟩

/-- Witness for C2 at a concrete request against the sample state. -/
theorem C2_zero_filter_mutation_rejected_witness :
    isBadRequest (handlePatch "p" true "t" (some ⟨[("a", "1")], false⟩) [] sampleState).1 = true ∧
    isBadRequest (handleDelete "p" true "t" [] sampleState).1 = true :=
  ⟨((C2_zero_filter_mutation_rejected "p" true "t" (some ⟨[("a", "1")], false⟩) [] sampleState) rfl).1.1,
   ((C2_zero_filter_mutation_rejected "p" true "t" (some ⟨[("a", "1")], false⟩) [] sampleState) rfl).2.1⟩

/-- C9: `createTable` rejects every request whose column list is empty or has
more than 100 columns with a BadRequest, executing no statement. -/
theorem C9_createTable_column_count :
    ∀ pid name cols ifNotExists s, (cols = [] ∨ 100 < cols.length) →
      isBadRequest (createTable pid name cols ifNotExists s).1 = true ∧
      (createTable pid name cols ifNotExists s).2.log = s.log := by
  intro pid name cols ifNotExists s h
  unfold createTable
  cases hv : vIdent name IdKind.table with
  | error e =>
    obtain ⟨m, rfl⟩ := vIdent_error_badRequest name IdKind.table e hv
    exact ⟨rfl, rfl⟩
  | ok u =>
    have hne : cols.isEmpty = true ∨ (cols.isEmpty = false ∧ cols.length > 100) := by
      rcases h with rfl | h
      · left; rfl
      · right
        refine ⟨?_, h⟩
        cases cols with
        | nil => simp at h
        | cons a t => rfl
    rcases hne with he | ⟨he, hl⟩
    · simp [he, isBadRequest]
    · simp [he, hl, isBadRequest]

/-- Witness for C9 at the empty column list. -/
theorem C9_createTable_column_count_witness :
    isBadRequest (createTable "p" "t" [] false sampleState).1 = true ∧
    (createTable "p" "t" [] false sampleState).2.log = sampleState.log :=
  C9_createTable_column_count "p" "t" [] false sampleState (Or.inl rfl)

/-- After `tableInfoCache.delete(projectId)` there is no cache entry for the
project. -/
theorem cacheGet_cacheDel (c : List (String × List TableInfo × Nat)) (pid : String) :
    cacheGet (cacheDel c pid) pid = none := by
  unfold cacheGet
  have h : (cacheDel c pid).find? (fun e => e.1 = pid) = none := by
    rw [List.find?_eq_none]
    intro x hx
    have hm := (List.mem_filter.mp hx).2
    simpa using hm
  rw [h]

/-- With no cache entry, `getTables` refetches from the live catalog. -/
theorem getTables_of_cache_none {pid : String} {s : GwState}
    (h : cacheGet s.cache pid = none) : (getTables pid s).1 = s.catalog pid := by
  unfold getTables
  rw [h]
  rfl

/-- Every DDL operation ends in `clearCache(projectId)` after its owner-role
statement, so the post-state has no cache entry and the next `getTables` reads
the live catalog. -/
theorem ddl_post_coherence (pid sql : String) (s : GwState) :
    cacheGet (clearCache pid (queryAsOwner pid sql s)).cache pid = none ∧
    (getTables pid (clearCache pid (queryAsOwner pid sql s))).1 =
      (clearCache pid (queryAsOwner pid sql s)).catalog pid := by
  have h1 : cacheGet (clearCache pid (queryAsOwner pid sql s)).cache pid = none :=
    cacheGet_cacheDel _ pid
  exact ⟨h1, getTables_of_cache_none h1⟩

/-- C8: every successful DDL operation (`createTable`, `dropTable`,
`addColumn`, `dropColumn`, `renameTable`, `renameColumn`) invalidates the
schema-cache entry of the tenant, so the very next `getTables` call refetches
from the live (post-DDL) catalog instead of serving a stale snapshot. -/
theorem C8_ddl_invalidates_cache :
    (∀ pid name cols ine s r s', createTable pid name cols ine s = (.ok r, s') →
      cacheGet s'.cache pid = none ∧ (getTables pid s').1 = s'.catalog pid)
  ∧ (∀ pid name ifx casc s r s', dropTable pid name ifx casc s = (.ok r, s') →
      cacheGet s'.cache pid = none ∧ (getTables pid s').1 = s'.catalog pid)
  ∧ (∀ pid name col s r s', addColumn pid name col s = (.ok r, s') →
      cacheGet s'.cache pid = none ∧ (getTables pid s').1 = s'.catalog pid)
  ∧ (∀ pid name colName ifx casc s r s', dropColumn pid name colName ifx casc s = (.ok r, s') →
      cacheGet s'.cache pid = none ∧ (getTables pid s').1 = s'.catalog pid)
  ∧ (∀ pid oldN newN s r s', renameTable pid oldN newN s = (.ok r, s') →
      cacheGet s'.cache pid = none ∧ (getTables pid s').1 = s'.catalog pid)
  ∧ (∀ pid name oldN newN s r s', renameColumn pid name oldN newN s = (.ok r, s') →
      cacheGet s'.cache pid = none ∧ (getTables pid s').1 = s'.catalog pid) := by
  refine ⟨?_, ?_, ?_, ?_, ?_, ?_⟩
  · intro pid name cols ine s r s' h
    unfold createTable at h
    cases hv : vIdent name IdKind.table with
    | error e => rw [hv] at h; simp at h
    | ok u =>
      rw [hv] at h
      by_cases he : cols.isEmpty = true
      · simp [he] at h
      · simp only [he] at h
        by_cases hl : cols.length > 100
        · simp [hl] at h
        · simp only [hl] at h
          cases hb : buildColumnDefs cols with
          | error e => rw [hb] at h; simp at h
          | ok q =>
            rw [hb] at h
            obtain ⟨ds, pks, uqs, fks⟩ := q
            simp only [Bool.false_eq_true, if_false, Prod.mk.injEq] at h
            rw [← h.2]
            exact ddl_post_coherence pid _ s
  · intro pid name ifx casc s r s' h
    unfold dropTable at h
    cases hv : vIdent name IdKind.table with
    | error e => rw [hv] at h; simp at h
    | ok u =>
      rw [hv] at h
      simp only [Prod.mk.injEq] at h
      rw [← h.2]
      exact ddl_post_coherence pid _ s
  · intro pid name col s r s' h
    unfold addColumn at h
    cases hv : vIdent name IdKind.table with
    | error e => rw [hv] at h; simp at h
    | ok u =>
      rw [hv] at h
      cases hv2 : vIdent col.name IdKind.column with
      | error e => rw [hv2] at h; simp at h
      | ok u2 =>
        rw [hv2] at h
        cases hd : addColumnDefText col with
        | error e => rw [hd] at h; simp at h
        | ok d =>
          rw [hd] at h
          simp only [Prod.mk.injEq] at h
          rw [← h.2]
          exact ddl_post_coherence pid _ s
  · intro pid name colName ifx casc s r s' h
    unfold dropColumn at h
    cases hv : vIdent name IdKind.table with
    | error e => rw [hv] at h; simp at h
    | ok u =>
      rw [hv] at h
      cases hv2 : vIdent colName IdKind.column with
      | error e => rw [hv2] at h; simp at h
      | ok u2 =>
        rw [hv2] at h
        simp only [Prod.mk.injEq] at h
        rw [← h.2]
        exact ddl_post_coherence pid _ s
  · intro pid oldN newN s r s' h
    unfold renameTable at h
    cases hv : vIdent oldN IdKind.table with
    | error e => rw [hv] at h; simp at h
    | ok u =>
      rw [hv] at h
      cases hv2 : vIdent newN IdKind.table with
      | error e => rw [hv2] at h; simp at h
      | ok u2 =>
        rw [hv2] at h
        simp only [Prod.mk.injEq] at h
        rw [← h.2]
        exact ddl_post_coherence pid _ s
  · intro pid name oldN newN s r s' h
    unfold renameColumn at h
    cases hv : vIdent name IdKind.table with
    | error e => rw [hv] at h; simp at h
    | ok u =>
      rw [hv] at h
      cases hv2 : vIdent oldN IdKind.column with
      | error e => rw [hv2] at h; simp at h
      | ok u2 =>
        rw [hv2] at h
        cases hv3 : vIdent newN IdKind.column with
        | error e => rw [hv3] at h; simp at h
        | ok u3 =>
          rw [hv3] at h
          simp only [Prod.mk.injEq] at h
          rw [← h.2]
          exact ddl_post_coherence pid _ s

/-- Witness for C8: a concrete successful `createTable` on the sample state. -/
theorem C8_ddl_invalidates_cache_witness :
    cacheGet ((createTable "p" "u" [⟨"a", "text", none, none, none, none, none⟩]
        false sampleState).2).cache "p" = none ∧
    (getTables "p" ((createTable "p" "u" [⟨"a", "text", none, none, none, none, none⟩]
        false sampleState).2)).1 =
      ((createTable "p" "u" [⟨"a", "text", none, none, none, none, none⟩]
        false sampleState).2).catalog "p" :=
  C8_ddl_invalidates_cache.1 "p" "u" [⟨"a", "text", none, none, none, none, none⟩]
    false sampleState "u" _ (by rfl)

/-- Splitting a list at the boundary of a run: if every element of `l`
satisfies `p` and `r` does not start with a `p`-element, then `takeWhile`
recovers `l` and `dropWhile` recovers `r`. -/
theorem takeWhile_dropWhile_append {p : Char → Bool} (r : List Char)
    (hr : ∀ a rest, r = a :: rest → p a = false) :
    ∀ l : List Char, (∀ c ∈ l, p c = true) →
      (l ++ r).takeWhile p = l ∧ (l ++ r).dropWhile p = r := by
  intro l
  induction l with
  | nil =>
    intro _
    cases hr2 : r with
    | nil => exact ⟨rfl, rfl⟩
    | cons a rest =>
      have ha := hr a rest hr2
      simp [List.takeWhile, List.dropWhile, ha]
  | cons c t ih =>
    intro hl
    have hc := hl c (by simp)
    have iht := ih (fun x hx => hl x (by simp [hx]))
    simp [List.takeWhile, List.dropWhile, hc, iht.1, iht.2]

/-- Characterization of the digit-run parser `numericLitCore`. -/
theorem numericLitCore_iff (l : List Char) :
    numericLitCore l = true ↔
      ∃ (ip : List Char) (fp : Option (List Char)),
        ip ≠ [] ∧ (∀ c ∈ ip, isAsciiDigit c = true) ∧
        (∀ f, fp = some f → (f ≠ [] ∧ ∀ c ∈ f, isAsciiDigit c = true)) ∧
        l = ip ++ (match fp with | none => [] | some f => dot :: f) := by
  constructor
  · intro h
    unfold numericLitCore at h
    simp only [Bool.and_eq_true, Bool.or_eq_true, Bool.not_eq_true'] at h
    obtain ⟨hds, hrest⟩ := h
    rcases hrest with hre | hm
    · refine ⟨l.takeWhile isAsciiDigit, none, ?_, ?_, by simp, ?_⟩
      · intro he
        rw [he] at hds
        simp at hds
      · intro c hc
        exact List.mem_takeWhile_imp hc
      · have hdw : l.dropWhile isAsciiDigit = [] := by
          simpa [List.isEmpty_iff] using hre
        have := List.takeWhile_append_dropWhile (p := isAsciiDigit) (l := l)
        rw [hdw] at this
        simpa using this.symm
    · cases hd : l.dropWhile isAsciiDigit with
      | nil =>
        rw [hd] at hm
        simp at hm
      | cons c fs =>
        rw [hd] at hm
        simp only [Bool.and_eq_true, decide_eq_true_eq, Bool.not_eq_true'] at hm
        obtain ⟨⟨hc, hfs⟩, hall⟩ := hm
        refine ⟨l.takeWhile isAsciiDigit, some fs, ?_, ?_, ?_, ?_⟩
        · intro he
          rw [he] at hds
          simp at hds
        · intro x hx
          exact List.mem_takeWhile_imp hx
        · intro f hf
          cases hf
          refine ⟨?_, ?_⟩
          · intro hfe
            rw [hfe] at hfs
            simp at hfs
          · intro x hx
            exact (List.all_eq_true.mp hall) x hx
        · have := List.takeWhile_append_dropWhile (p := isAsciiDigit) (l := l)
          rw [hd, hc] at this
          exact this.symm
  · rintro ⟨ip, fp, hne, hdig, hfp, rfl⟩
    unfold numericLitCore
    cases fp with
    | none =>
      have hsplit := takeWhile_dropWhile_append (p := isAsciiDigit) []
        (by intro a rest h; cases h) ip hdig
      simp only [Bool.and_eq_true, Bool.or_eq_true, Bool.not_eq_true']
      refine ⟨?_, Or.inl ?_⟩
      · rw [hsplit.1]
        cases ip with
        | nil => exact absurd rfl hne
        | cons a t => rfl
      · rw [hsplit.2]
        rfl
    | some f =>
      obtain ⟨hfne, hfdig⟩ := hfp f rfl
      have hsplit := takeWhile_dropWhile_append (p := isAsciiDigit) (dot :: f)
        (by
          intro a rest h
          cases h
          decide) ip hdig
      simp only [Bool.and_eq_true, Bool.or_eq_true, Bool.not_eq_true']
      refine ⟨?_, Or.inr ?_⟩
      · rw [hsplit.1]
        cases ip with
        | nil => exact absurd rfl hne
        | cons a t => rfl
      · rw [hsplit.2]
        simp only [Bool.and_eq_true, decide_eq_true_eq, Bool.not_eq_true']
        refine ⟨⟨trivial, ?_⟩, ?_⟩
        · cases f with
          | nil => exact absurd rfl hfne
          | cons a t => rfl
        · exact List.all_eq_true.mpr hfdig


/-- The optional-minus wrapper `numericLit` matches the declarative numeric
literal shape. -/
theorem numericLit_iff (d : String) : numericLit d = true ↔ NumericLitSpec d := by
  unfold NumericLitSpec
  cases hd : d.data with
  | nil =>
    have hred : numericLit d = false := by
      unfold numericLit
      rw [hd]
    rw [hred]
    constructor
    · intro h
      cases h
    · rintro ⟨neg, ip, fp, hne, hdig, hfp, heq⟩
      cases neg with
      | true => simp at heq
      | false =>
        cases ip with
        | nil => exact absurd rfl hne
        | cons a t => simp at heq
  | cons c rest =>
    have hred : numericLit d =
        (if c = dash then numericLitCore rest else numericLitCore (c :: rest)) := by
      unfold numericLit
      rw [hd]
    rw [hred]
    by_cases hc : c = dash
    · rw [if_pos hc]
      rw [numericLitCore_iff rest]
      constructor
      · rintro ⟨ip, fp, hne, hdig, hfp, heq⟩
        refine ⟨true, ip, fp, hne, hdig, hfp, ?_⟩
        rw [hc, heq]
        rfl
      · rintro ⟨neg, ip, fp, hne, hdig, hfp, heq⟩
        cases neg with
        | true =>
          simp only [List.append_assoc, List.singleton_append, List.cons.injEq] at heq
          simp at heq
          exact ⟨ip, fp, hne, hdig, hfp, heq.2⟩
        | false =>
          simp only [Bool.false_eq_true, if_false, List.nil_append] at heq
          cases ip with
          | nil => exact absurd rfl hne
          | cons a t =>
            simp only [List.cons_append, List.cons.injEq] at heq
            have hda : isAsciiDigit a = true := hdig a (by simp)
            rw [← heq.1, hc] at hda
            have hdd : isAsciiDigit dash = false := by decide
            rw [hdd] at hda
            cases hda
    · rw [if_neg hc]
      rw [numericLitCore_iff (c :: rest)]
      constructor
      · rintro ⟨ip, fp, hne, hdig, hfp, heq⟩
        refine ⟨false, ip, fp, hne, hdig, hfp, ?_⟩
        simpa using heq
      · rintro ⟨neg, ip, fp, hne, hdig, hfp, heq⟩
        cases neg with
        | true =>
          simp only [List.append_assoc, List.singleton_append, List.cons.injEq] at heq
          simp at heq
          exact absurd heq.1 hc
        | false =>
          simp only [Bool.false_eq_true, if_false, List.nil_append] at heq
          exact ⟨ip, fp, hne, hdig, hfp, heq⟩

/-- Characterization of `quotedTail`: a quote-free body followed by a closing
quote. -/
theorem quotedTail_iff : ∀ m : List Char, quotedTail m = true ↔
    ∃ mid, (∀ c ∈ mid, ¬ c = SQ) ∧ m = mid ++ [SQ] := by
  intro m
  induction m with
  | nil =>
    constructor
    · intro h
      cases h
    · rintro ⟨mid, _, heq⟩
      cases mid with
      | nil => cases heq
      | cons a t => cases heq
  | cons c m ih =>
    cases m with
    | nil =>
      constructor
      · intro h
        have hc : c = SQ := by simpa [quotedTail] using h
        exact ⟨[], by simp, by simp [hc]⟩
      · rintro ⟨mid, hq, heq⟩
        cases mid with
        | nil =>
          simp only [List.nil_append, List.cons.injEq] at heq
          simp [quotedTail, heq.1]
        | cons x t =>
          simp only [List.cons_append, List.cons.injEq] at heq
          obtain ⟨-, heq2⟩ := heq
          cases t with
          | nil => cases heq2
          | cons y u => cases heq2
    | cons c2 rest =>
      constructor
      · intro h
        simp only [quotedTail, Bool.and_eq_true, Bool.not_eq_true',
          decide_eq_false_iff_not] at h
        obtain ⟨hc, ht⟩ := h
        obtain ⟨mid, hq, heq⟩ := ih.mp ht
        refine ⟨c :: mid, ?_, by rw [List.cons_append, ← heq]⟩
        intro x hx
        rcases List.mem_cons.mp hx with rfl | hx2
        · exact hc
        · exact hq x hx2
      · rintro ⟨mid, hq, heq⟩
        cases mid with
        | nil =>
          simp only [List.nil_append, List.cons.injEq] at heq
          cases heq.2
        | cons x t =>
          simp only [List.cons_append, List.cons.injEq] at heq
          obtain ⟨rfl, heq2⟩ := heq
          simp only [quotedTail, Bool.and_eq_true, Bool.not_eq_true',
            decide_eq_false_iff_not]
          refine ⟨hq c (by simp), ?_⟩
          exact ih.mpr ⟨t, fun y hy => hq y (by simp [hy]), heq2⟩

/-- The quoted-string-literal regex matches the declarative string literal
shape. -/
theorem quotedStringLit_iff (d : String) :
    quotedStringLit d = true ↔ StringLitSpec d := by
  unfold StringLitSpec
  cases hd : d.data with
  | nil =>
    have hred : quotedStringLit d = false := by
      unfold quotedStringLit
      rw [hd]
    rw [hred]
    constructor
    · intro h
      cases h
    · rintro ⟨mid, _, heq⟩
      cases heq
  | cons c m =>
    cases m with
    | nil =>
      have hred : quotedStringLit d = false := by
        unfold quotedStringLit
        rw [hd]
      rw [hred]
      constructor
      · intro h
        cases h
      · rintro ⟨mid, _, heq⟩
        simp only [List.cons.injEq] at heq
        obtain ⟨-, heq2⟩ := heq
        cases mid with
        | nil => cases heq2
        | cons x t =>
          cases t with
          | nil => cases heq2
          | cons y u => cases heq2
    | cons c2 rest =>
      have hred : quotedStringLit d = (decide (c = SQ) && quotedTail (c2 :: rest)) := by
        unfold quotedStringLit
        rw [hd]
      rw [hred]
      simp only [Bool.and_eq_true, decide_eq_true_eq]
      rw [quotedTail_iff (c2 :: rest)]
      constructor
      · rintro ⟨hc, mid, hq, heq⟩
        refine ⟨mid, hq, ?_⟩
        rw [hc, heq]
      · rintro ⟨mid, hq, heq⟩
        simp only [List.cons.injEq] at heq
        exact ⟨heq.1, mid, hq, heq.2⟩


/-- `isBadRequest` on a thrown error holds exactly for `BadRequestError`s. -/
theorem isBadRequest_error_iff {α : Type} (e : AppError) :
    isBadRequest (α := α) (.error e) = true ↔ ∃ m, e = AppError.badRequest m := by
  cases e with
  | badRequest m => simp [isBadRequest]
  | notFound m => simp [isBadRequest]
  | forbidden m => simp [isBadRequest]

/-- `finishColumnDef` either succeeds or throws a `BadRequestError`. -/
theorem finishColumnDef_badRequest_or_ok (col : ColumnDefinition) (d : String) :
    isBadRequest (finishColumnDef col d) = true ∨
    exceptOk (finishColumnDef col d) = true := by
  cases href : col.references with
  | none =>
    right
    unfold finishColumnDef
    rw [href]
    rfl
  | some r =>
    have hred : finishColumnDef col d =
        (match vIdent r.table IdKind.table with
         | .error e => .error e
         | .ok _ =>
           match vIdent r.column IdKind.column with
           | .error e => .error e
           | .ok _ => .ok (d,
               (if optTrue col.primaryKey then [quoteId col.name] else []),
               (if optTrue col.unique then ["UNIQUE (" ++ quoteId col.name ++ ")"] else []),
               ["FOREIGN KEY (" ++ quoteId col.name ++ ") REFERENCES " ++
                quoteId r.table ++ " (" ++ quoteId r.column ++ ")"])) := by
      unfold finishColumnDef
      rw [href]
    rw [hred]
    cases hv : vIdent r.table IdKind.table with
    | error e =>
      obtain ⟨m, rfl⟩ := vIdent_error_badRequest r.table IdKind.table e hv
      left; rfl
    | ok u =>
      cases hv2 : vIdent r.column IdKind.column with
      | error e2 =>
        obtain ⟨m, rfl⟩ := vIdent_error_badRequest r.column IdKind.column e2 hv2
        left; rfl
      | ok u2 => right; rfl

/-- `buildColumnDef` either succeeds or throws a `BadRequestError`. -/
theorem buildColumnDef_badRequest_or_ok (col : ColumnDefinition) :
    isBadRequest (buildColumnDef col) = true ∨
    exceptOk (buildColumnDef col) = true := by
  unfold buildColumnDef
  cases hv : vIdent col.name IdKind.column with
  | error e =>
    obtain ⟨m, rfl⟩ := vIdent_error_badRequest col.name IdKind.column e hv
    left; rfl
  | ok u =>
    cases ht : ALLOWED_DATA_TYPES.contains (baseTypeOf col.type) with
    | false => left; simp [ht, isBadRequest]
    | true =>
      simp only [ht, Bool.not_true, Bool.false_eq_true, if_false]
      cases hd : col.defaultValue with
      | none => exact finishColumnDef_badRequest_or_ok col _
      | some dv =>
        cases hb : isAllowedDefault dv with
        | false => left; simp [hb, isBadRequest]
        | true =>
          simp only [hb, if_true]
          exact finishColumnDef_badRequest_or_ok col _

/-- A column whose default expression fails the allowlist makes
`buildColumnDef` throw a `BadRequestError`. -/
theorem buildColumnDef_badDefault (col : ColumnDefinition) (dv : String)
    (hdv : col.defaultValue = some dv) (hbad : isAllowedDefault dv = false) :
    isBadRequest (buildColumnDef col) = true := by
  unfold buildColumnDef
  cases hv : vIdent col.name IdKind.column with
  | error e =>
    obtain ⟨m, rfl⟩ := vIdent_error_badRequest col.name IdKind.column e hv
    rfl
  | ok u =>
    cases ht : ALLOWED_DATA_TYPES.contains (baseTypeOf col.type) with
    | false => simp [ht, isBadRequest]
    | true => simp [ht, hdv, hbad, isBadRequest]

/-- A bad default anywhere in the column list makes the whole `createTable`
column loop throw a `BadRequestError`. -/
theorem buildColumnDefs_badDefault :
    ∀ (cols : List ColumnDefinition) (col : ColumnDefinition) (dv : String),
      col ∈ cols → col.defaultValue = some dv → isAllowedDefault dv = false →
      isBadRequest (buildColumnDefs cols) = true := by
  intro cols
  induction cols with
  | nil =>
    intro col dv hmem
    cases hmem
  | cons c0 rest ih =>
    intro col dv hmem hdv hbad
    unfold buildColumnDefs
    rcases List.mem_cons.mp hmem with rfl | hmem2
    · have h0 := buildColumnDef_badDefault col dv hdv hbad
      cases hb : buildColumnDef col with
      | error e =>
        rw [hb] at h0
        obtain ⟨m, rfl⟩ := (isBadRequest_error_iff e).mp h0
        rfl
      | ok v =>
        rw [hb] at h0
        cases h0
    · cases hb : buildColumnDef c0 with
      | error e =>
        rcases buildColumnDef_badRequest_or_ok c0 with h | h
        · rw [hb] at h
          obtain ⟨m, rfl⟩ := (isBadRequest_error_iff e).mp h
          rfl
        · rw [hb] at h
          cases h
      | ok v =>
        obtain ⟨d0, pk0, uq0, fk0⟩ := v
        have hr := ih col dv hmem2 hdv hbad
        cases hb2 : buildColumnDefs rest with
        | error e2 =>
          rw [hb2] at hr
          obtain ⟨m, rfl⟩ := (isBadRequest_error_iff e2).mp hr
          rfl
        | ok v2 =>
          rw [hb2] at hr
          cases hr

/-- A bad default makes `addColumnDefText` throw a `BadRequestError`. -/
theorem addColumnDefText_badDefault (col : ColumnDefinition) (dv : String)
    (hdv : col.defaultValue = some dv) (hbad : isAllowedDefault dv = false) :
    isBadRequest (addColumnDefText col) = true := by
  unfold addColumnDefText
  cases ht : ALLOWED_DATA_TYPES.contains (baseTypeOf col.type) with
  | false => simp [ht, isBadRequest]
  | true => simp [ht, hdv, hbad, isBadRequest]

/-- C7: a DDL column default expression is accepted exactly when it has one of
the closed literal forms (numeric literal, single-quoted string literal with
no embedded quote, boolean literal, or one of the three zero-argument calls
`now()`, `gen_random_uuid()`, `CURRENT_TIMESTAMP`); any other default makes
`createTable` and `addColumn` fail with BadRequest before any DDL statement is
executed. -/
theorem C7_default_expression_allowlist :
    (∀ d, isAllowedDefault d = true ↔ DefaultExprSpec d)
  ∧ (∀ pid name cols ifNotExists s (col : ColumnDefinition) dv,
      col ∈ cols → col.defaultValue = some dv → isAllowedDefault dv = false →
      isBadRequest (createTable pid name cols ifNotExists s).1 = true ∧
      (createTable pid name cols ifNotExists s).2.log = s.log)
  ∧ (∀ pid name col dv s, col.defaultValue = some dv → isAllowedDefault dv = false →
      isBadRequest (addColumn pid name col s).1 = true ∧
      (addColumn pid name col s).2.log = s.log) := by
  refine ⟨?_, ?_, ?_⟩
  · intro d
    unfold isAllowedDefault DefaultExprSpec
    simp only [Bool.or_eq_true, decide_eq_true_eq]
    rw [numericLit_iff d, quotedStringLit_iff d]
    tauto
  · intro pid name cols ifNotExists s col dv hmem hdv hbad
    unfold createTable
    cases hv : vIdent name IdKind.table with
    | error e =>
      obtain ⟨m, rfl⟩ := vIdent_error_badRequest name IdKind.table e hv
      exact ⟨rfl, rfl⟩
    | ok u =>
      by_cases he : cols.isEmpty = true
      · simp [he, isBadRequest]
      · simp only [he, Bool.false_eq_true, if_false]
        by_cases hl : cols.length > 100
        · simp [hl, isBadRequest]
        · simp only [hl, if_false]
          have hr := buildColumnDefs_badDefault cols col dv hmem hdv hbad
          cases hb : buildColumnDefs cols with
          | error e =>
            rw [hb] at hr
            obtain ⟨m, rfl⟩ := (isBadRequest_error_iff e).mp hr
            exact ⟨rfl, rfl⟩
          | ok v =>
            rw [hb] at hr
            cases hr
  · intro pid name col dv s hdv hbad
    unfold addColumn
    cases hv : vIdent name IdKind.table with
    | error e =>
      obtain ⟨m, rfl⟩ := vIdent_error_badRequest name IdKind.table e hv
      exact ⟨rfl, rfl⟩
    | ok u =>
      cases hv2 : vIdent col.name IdKind.column with
      | error e =>
        obtain ⟨m, rfl⟩ := vIdent_error_badRequest col.name IdKind.column e hv2
        exact ⟨rfl, rfl⟩
      | ok u2 =>
        have hr := addColumnDefText_badDefault col dv hdv hbad
        cases hb : addColumnDefText col with
        | error e =>
          rw [hb] at hr
          obtain ⟨m, rfl⟩ := (isBadRequest_error_iff e).mp hr
          exact ⟨rfl, rfl⟩
        | ok d2 =>
          rw [hb] at hr
          cases hr

/-- Witness for C7: the expression `now` (no parentheses) is rejected and a
concrete `addColumn` carrying it fails with no statement executed; `now()` is
characterized as allowed. -/
theorem C7_default_expression_allowlist_witness :
    (isAllowedDefault "now()" = true ↔ DefaultExprSpec "now()") ∧
    isBadRequest (addColumn "p" "t" ⟨"c", "text", none, none, none, some "now", none⟩
      sampleState).1 = true ∧
    (addColumn "p" "t" ⟨"c", "text", none, none, none, some "now", none⟩
      sampleState).2.log = sampleState.log :=
  ⟨C7_default_expression_allowlist.1 "now()",
   (C7_default_expression_allowlist.2.2 "p" "t"
     ⟨"c", "text", none, none, none, some "now", none⟩ "now" sampleState rfl (by decide)).1,
   (C7_default_expression_allowlist.2.2 "p" "t"
     ⟨"c", "text", none, none, none, some "now", none⟩ "now" sampleState rfl (by decide)).2⟩

set_option maxRecDepth 4000 in
/-- C4 counterexample: the claim says a malformed limit fails the request, but
`limit=abc` parses to NaN, the request succeeds, and the generated SQL
silently carries the default limit 100. -/
theorem C4_counterexample_malformed_limit_accepted :
    parseIntJs "abc" = JsNumber.nan ∧
    exceptOk (handleGet "p" true "t" SelectSpec.star none (some "abc") none []
      sampleState).1 = true ∧
    (handleGet "p" true "t" SelectSpec.star none (some "abc") none []
      sampleState).2.log =
      [⟨"p", Role.app, introspectionSql, []⟩,
       ⟨"p", Role.app, selectSqlText "*" "t" "" "" 100 0, []⟩] := by
  refine ⟨rfl, rfl, ?_⟩
  decide

/-- C4 amended: `limit`/`offset` are parsed with `parseInt`; a malformed value
(NaN) is treated exactly like an omitted parameter (silently replaced by the
default limit, or 0 for the offset), and a negative parse is used as-is
(clamped only from above); the gateway never fails a request over a malformed
`limit` or `offset`. -/
theorem C4_malformed_limit_silently_defaults :
    (∀ pid table sel ord off filters s,
      crudSelect pid table sel ord (some JsNumber.nan) off filters s =
      crudSelect pid table sel ord none off filters s)
  ∧ (∀ pid table sel ord lim filters s,
      crudSelect pid table sel ord lim (some JsNumber.nan) filters s =
      crudSelect pid table sel ord lim none filters s)
  ∧ (∀ n : Int, ¬ n = 0 → ∀ d m, computeLimit (some (JsNumber.int n)) d m = min n m)
  ∧ (∀ s : String, ¬ s = "" → routeIntParam (some s) = some (parseIntJs s)) := by
  refine ⟨?_, ?_, ?_, ?_⟩
  · intro pid table sel ord off filters s
    rfl
  · intro pid table sel ord lim filters s
    rfl
  · intro n hn d m
    simp [computeLimit, limitOrDefault, hn]
  · intro s hs
    simp [routeIntParam, hs]

/-- Witness for the amended C4: a negative limit is passed through unclamped
from below. -/
theorem C4_malformed_limit_silently_defaults_witness :
    computeLimit (some (JsNumber.int (-5))) 100 1000 = -5 := by
  have h := C4_malformed_limit_silently_defaults.2.2.1 (-5) (by decide) 100 1000
  rw [h]
  decide

/-- C5 counterexample: a request with `limit=0` does not get effective limit
`min(0, max) = 0`; the falsy zero is replaced by the default (100), and with a
default above the max the omitted-limit case is clamped to the max rather than
getting the configured default. -/
theorem C5_counterexample_zero_limit :
    routeIntParam (some "0") = some (JsNumber.int 0) ∧
    computeLimit (routeIntParam (some "0")) 100 1000 = 100 ∧
    ¬ (computeLimit (routeIntParam (some "0")) 100 1000 = min 0 1000) ∧
    computeLimit none 2000 1000 = 1000 ∧
    ¬ ((2000 : Int) = 1000) := by
  refine ⟨rfl, by decide, by decide, by decide, by decide⟩

/-- C5 amended: for a positive requested limit the effective limit is
`min(requested, maxRows)`; when the limit is omitted, zero, or NaN, the
effective limit is `min(defaultLimit, maxRows)`. -/
theorem C5_effective_limit_clamp :
    (∀ n : Int, 0 < n → ∀ d m, computeLimit (some (JsNumber.int n)) d m = min n m)
  ∧ (∀ d m, computeLimit none d m = min d m)
  ∧ (∀ d m, computeLimit (some JsNumber.nan) d m = min d m)
  ∧ (∀ d m, computeLimit (some (JsNumber.int 0)) d m = min d m) := by
  refine ⟨?_, ?_, ?_, ?_⟩
  · intro n hn d m
    have hne : ¬ n = 0 := by omega
    simp [computeLimit, limitOrDefault, hne]
  · intro d m
    rfl
  · intro d m
    rfl
  · intro d m
    rfl

/-- Witness for the amended C5 at the numbers of the spec example: requesting
5000 with max 1000 yields 1000. -/
theorem C5_effective_limit_clamp_witness :
    computeLimit (some (JsNumber.int 5000)) 100 1000 = 1000 := by
  have h := C5_effective_limit_clamp.1 5000 (by decide) 100 1000
  rw [h]
  decide


/-- On a fully valid row, `insertRowBuild` produces the quoted keys, the
values in order, and consecutive placeholders. -/
theorem insertRowBuild_valid (allowed : List String) :
    ∀ (row : Row) (idx : Nat), rowValid allowed row = true →
      insertRowBuild allowed row idx =
        .ok (row.map (fun kv => quoteId kv.1), row.map (fun kv => kv.2),
             placeholdersFrom idx row.length) := by
  intro row
  induction row with
  | nil =>
    intro idx _
    rfl
  | cons kv rest ih =>
    intro idx hv
    obtain ⟨col, v⟩ := kv
    simp only [rowValid, List.all_cons, Bool.and_eq_true] at hv
    have hrest := ih (idx + 1) hv.2
    unfold insertRowBuild
    rw [if_pos hv.1, hrest]
    rfl

/-- A row containing an unknown key makes `insertRowBuild` throw a
`BadRequestError`. -/
theorem insertRowBuild_invalid (allowed : List String) :
    ∀ (row : Row) (idx : Nat), rowValid allowed row = false →
      ∃ m, insertRowBuild allowed row idx = .error (.badRequest m) := by
  intro row
  induction row with
  | nil =>
    intro idx hv
    cases hv
  | cons kv rest ih =>
    intro idx hv
    obtain ⟨col, v⟩ := kv
    cases hc : allowed.contains col with
    | false =>
      refine ⟨"Invalid column: " ++ col, ?_⟩
      unfold insertRowBuild
      rw [if_neg (by intro h; rw [hc] at h; exact Bool.false_ne_true h)]
    | true =>
      have hrest : rowValid allowed rest = false := by
        simp only [rowValid, List.all_cons, hc, Bool.true_and] at hv
        exact hv
      obtain ⟨m, hm⟩ := ih (idx + 1) hrest
      refine ⟨m, ?_⟩
      unfold insertRowBuild
      rw [if_pos hc, hm]

/-- Behavior of the `crudService.insert` execution loop: with all rows valid
it succeeds after executing exactly one INSERT per row; with some invalid row
it throws BadRequest after executing exactly one INSERT per row of the
maximal valid prefix. -/
theorem insertLoop_spec (pid table : String) (allowed : List String)
    (returning : Bool) :
    ∀ (rows : List Row) (acc : List Row) (s : GwState),
      ((∀ row ∈ rows, rowValid allowed row = true) →
        exceptOk (insertLoop pid table allowed rows returning acc s).1 = true ∧
        (insertLoop pid table allowed rows returning acc s).2.log =
          s.log ++ rows.map (insertStmtFor pid table returning))
      ∧ ((∃ row ∈ rows, rowValid allowed row = false) →
        isBadRequest (insertLoop pid table allowed rows returning acc s).1 = true ∧
        (insertLoop pid table allowed rows returning acc s).2.log =
          s.log ++ (rows.takeWhile (rowValid allowed)).map
            (insertStmtFor pid table returning)) := by
  intro rows
  induction rows with
  | nil =>
    intro acc s
    constructor
    · intro _
      exact ⟨rfl, by simp [insertLoop]⟩
    · rintro ⟨row, hmem, _⟩
      cases hmem
  | cons row rest ih =>
    intro acc s
    constructor
    · intro hall
      have hv : rowValid allowed row = true := hall row (by simp)
      have hb := insertRowBuild_valid allowed row 1 hv
      unfold insertLoop
      rw [hb]
      have hrec := (ih
        (nextAcc returning acc
          (queryAsApp pid (insertSqlText table (row.map fun kv => quoteId kv.1)
            (placeholdersFrom 1 row.length) returning)
            (row.map fun kv => kv.2) s).1)
        (queryAsApp pid (insertSqlText table (row.map fun kv => quoteId kv.1)
          (placeholdersFrom 1 row.length) returning)
          (row.map fun kv => kv.2) s).2).1
        (fun r hr => hall r (by simp [hr]))
      refine ⟨hrec.1, ?_⟩
      refine hrec.2.trans ?_
      simp [queryAsApp, insertStmtFor]
    · rintro ⟨brow, (hmem : brow ∈ row :: rest), hbad⟩
      cases hv : rowValid allowed row with
      | false =>
        obtain ⟨m, hb⟩ := insertRowBuild_invalid allowed row 1 hv
        unfold insertLoop
        rw [hb]
        refine ⟨rfl, ?_⟩
        simp [List.takeWhile_cons, hv]
      | true =>
        have hmem2 : brow ∈ rest := by
          rcases List.mem_cons.mp hmem with rfl | h2
          · rw [hv] at hbad
            cases hbad
          · exact h2
        have hb := insertRowBuild_valid allowed row 1 hv
        unfold insertLoop
        rw [hb]
        have hrec := (ih
          (nextAcc returning acc
            (queryAsApp pid (insertSqlText table (row.map fun kv => quoteId kv.1)
              (placeholdersFrom 1 row.length) returning)
              (row.map fun kv => kv.2) s).1)
          (queryAsApp pid (insertSqlText table (row.map fun kv => quoteId kv.1)
            (placeholdersFrom 1 row.length) returning)
            (row.map fun kv => kv.2) s).2).2
          ⟨brow, hmem2, hbad⟩
        refine ⟨hrec.1, ?_⟩
        refine hrec.2.trans ?_
        simp [queryAsApp, insertStmtFor, List.takeWhile_cons, hv]

set_option maxRecDepth 4000 in
/-- C3 counterexample: the claim says an insert request with an unknown key in
some row leaves the database unchanged, but validation is interleaved with
execution: with rows `[{a:1}, {bad:2}]` the request fails with BadRequest
while the INSERT for the first row has already been executed. -/
theorem C3_counterexample_partial_insert :
    isBadRequest (crudInsert "p" "t" [[("a", "1")], [("bad", "2")]] false
      sampleState).1 = true ∧
    (crudInsert "p" "t" [[("a", "1")], [("bad", "2")]] false sampleState).2.log =
      [⟨"p", Role.app, introspectionSql, []⟩,
       insertStmtFor "p" "t" false [("a", "1")]] := by
  constructor
  · rfl
  · decide

/-- C3 amended: an insert request whose row list contains a row with an
unknown key fails with BadRequest, that row and all later rows are not
inserted, and unknown keys are never silently dropped; however, each row of
the maximal valid prefix before the first invalid row has already been
executed as one parameterized INSERT (validation is interleaved per row, with
no transaction); a fully valid request succeeds and executes exactly one
parameterized INSERT per row. -/
theorem C3_insert_per_row_validation :
    ∀ pid table rows returning s tables s1 (ti : TableInfo),
      getTables pid s = (tables, s1) →
      tables.find? (fun t => t.tableName = table) = some ti →
      ((∀ row ∈ rows, rowValid (ti.columns.map fun c => c.name) row = true) →
        exceptOk (crudInsert pid table rows returning s).1 = true ∧
        (crudInsert pid table rows returning s).2.log =
          s1.log ++ rows.map (insertStmtFor pid table returning))
      ∧ ((∃ row ∈ rows, rowValid (ti.columns.map fun c => c.name) row = false) →
        isBadRequest (crudInsert pid table rows returning s).1 = true ∧
        (crudInsert pid table rows returning s).2.log =
          s1.log ++ (rows.takeWhile (rowValid (ti.columns.map fun c => c.name))).map
            (insertStmtFor pid table returning)) := by
  intro pid table rows returning s tables s1 ti hgt hfind
  have hred : crudInsert pid table rows returning s =
      insertLoop pid table (ti.columns.map fun c => c.name) rows returning [] s1 := by
    unfold crudInsert
    rw [hgt]
    simp only [hfind]
  rw [hred]
  exact insertLoop_spec pid table _ returning rows [] s1

/-- Witness for the amended C3: a fully valid one-row insert on the sample
state succeeds with exactly one INSERT statement. -/
theorem C3_insert_per_row_validation_witness :
    exceptOk (crudInsert "p" "t" [[("a", "1")]] false sampleState).1 = true ∧
    (crudInsert "p" "t" [[("a", "1")]] false sampleState).2.log =
      (getTables "p" sampleState).2.log ++ [insertStmtFor "p" "t" false [("a", "1")]] :=
  (C3_insert_per_row_validation "p" "t" [[("a", "1")]] false sampleState
    (getTables "p" sampleState).1 (getTables "p" sampleState).2
    ⟨"t", [⟨"a", "text", true, none⟩]⟩ (by rfl) (by rfl)).1 (by decide)

/-- A list with no dollar signs trivially satisfies the placeholder adjacency
relation. -/
theorem chain_of_noDollar : ∀ l : List Char, (∀ c ∈ l, ¬ c = dollar) →
    l.Chain' metaSafeRel := by
  intro l
  induction l with
  | nil => intro _; exact List.chain'_nil
  | cons c m ih =>
    intro h
    cases m with
    | nil => exact List.chain'_singleton c
    | cons b t =>
      refine List.chain'_cons.mpr ⟨fun hc => absurd hc (h c (by simp)), ?_⟩
      exact ih (fun x hx => h x (by simp [hx]))

/-- `SqlTextSafe` composes over append. -/
theorem sqlTextSafe_append {a b : List Char} (ha : SqlTextSafe a)
    (hb : SqlTextSafe b) : SqlTextSafe (a ++ b) := by
  refine ⟨?_, ?_, ?_⟩
  · intro c hc
    rcases List.mem_append.mp hc with h | h
    · exact ha.1 c h
    · exact hb.1 c h
  · apply List.Chain'.append ha.2.1 hb.2.1
    intro x hx y _
    exact fun hxd => absurd hxd (ha.2.2 x (by simpa using hx))
  · intro c hc
    rw [List.getLast?_append] at hc
    cases hby : b.getLast? with
    | some y =>
      rw [hby] at hc
      simp at hc
      rw [← hc]
      exact hb.2.2 y hby
    | none =>
      rw [hby] at hc
      simp at hc
      exact ha.2.2 c hc

/-- A fragment with none of the four metacharacters is safe. -/
theorem sqlTextSafe_of_plain {l : List Char}
    (h : ∀ c ∈ l, ¬ c = SQ ∧ ¬ c = semi ∧ ¬ c = dash ∧ ¬ c = dollar) :
    SqlTextSafe l := by
  refine ⟨fun c hc => ⟨(h c hc).1, (h c hc).2.1, (h c hc).2.2.1⟩,
    chain_of_noDollar l (fun c hc => (h c hc).2.2.2),
    fun c hc => (h c (List.mem_of_mem_getLast? hc)).2.2.2⟩

/-- Soundness of the decidable fragment check. -/
theorem plain_of_fragOkB {l : List Char} (h : fragOkB l = true) :
    ∀ c ∈ l, ¬ c = SQ ∧ ¬ c = semi ∧ ¬ c = dash ∧ ¬ c = dollar := by
  intro c hc
  have hx := (List.all_eq_true.mp h) c hc
  simp only [Bool.and_eq_true, Bool.not_eq_true', beq_eq_false_iff_ne, ne_eq] at hx
  exact ⟨hx.1.1.1, hx.1.1.2, hx.1.2, hx.2⟩

/-- A fixed fragment checked by `fragOkB` is safe. -/
theorem sqlStrSafe_of_frag (s : String) (h : fragOkB s.data = true) :
    SqlStrSafe s := sqlTextSafe_of_plain (plain_of_fragOkB h)

/-- `SqlStrSafe` composes over string append. -/
theorem sqlStrSafe_append (a b : String) (ha : SqlStrSafe a) (hb : SqlStrSafe b) :
    SqlStrSafe (a ++ b) := by
  rw [SqlStrSafe, String.data_append]
  exact sqlTextSafe_append ha hb

/-- Numeric ranges of identifier characters. -/
theorem identChar_vals (c : Char) (h : isIdentChar c = true) :
    (65 ≤ c.toNat ∧ c.toNat ≤ 90) ∨ (97 ≤ c.toNat ∧ c.toNat ≤ 122) ∨
    c.toNat = 95 ∨ (48 ≤ c.toNat ∧ c.toNat ≤ 57) := by
  simp only [isIdentChar, isIdentStart, isAsciiUpper, isAsciiLower, isAsciiDigit,
    Bool.or_eq_true, Bool.and_eq_true, decide_eq_true_eq] at h
  rcases h with ((h | h) | h) | h
  · exact Or.inl h
  · exact Or.inr (Or.inl h)
  · refine Or.inr (Or.inr (Or.inl ?_))
    rw [h]
    rfl
  · exact Or.inr (Or.inr (Or.inr h))

/-- Identifier characters are not SQL metacharacters. -/
theorem identChar_noMeta (c : Char) (h : isIdentChar c = true) :
    ¬ c = SQ ∧ ¬ c = semi ∧ ¬ c = dash ∧ ¬ c = dollar := by
  have hr := identChar_vals c h
  have h39 : SQ.toNat = 39 := rfl
  have h59 : semi.toNat = 59 := rfl
  have h45 : dash.toNat = 45 := rfl
  have h36 : dollar.toNat = 36 := rfl
  refine ⟨?_, ?_, ?_, ?_⟩
  · intro he
    rw [he, h39] at hr
    omega
  · intro he
    rw [he, h59] at hr
    omega
  · intro he
    rw [he, h45] at hr
    omega
  · intro he
    rw [he, h36] at hr
    omega

/-- Every character of a name matching the identifier regex is an identifier
character. -/
theorem pattern_all_identChar {s : String} (h : matchesIdentPattern s = true) :
    ∀ c ∈ s.data, isIdentChar c = true := by
  unfold matchesIdentPattern at h
  cases hd : s.data with
  | nil =>
    rw [hd] at h
    cases h
  | cons c0 cs =>
    rw [hd] at h
    simp only [identPatternL, Bool.and_eq_true] at h
    intro c hc
    rcases List.mem_cons.mp hc with rfl | hc2
    · simp [isIdentChar, h.1]
    · exact (List.all_eq_true.mp h.2) c hc2

/-- A quoted identifier is safe SQL text. -/
theorem sqlStrSafe_quoteId (s : String) (h : matchesIdentPattern s = true) :
    SqlStrSafe (quoteId s) := by
  apply sqlTextSafe_of_plain
  intro c hc
  have hqq : ∀ x ∈ ("\"" : String).data,
      ¬ x = SQ ∧ ¬ x = semi ∧ ¬ x = dash ∧ ¬ x = dollar := by decide
  rw [quoteId, String.data_append, String.data_append] at hc
  rcases List.mem_append.mp hc with hc1 | hc2
  · rcases List.mem_append.mp hc1 with hq | hs
    · exact hqq c hq
    · exact identChar_noMeta c (pattern_all_identChar h c hs)
  · exact hqq c hc2

/-- `digitChar` always yields a digit character. -/
theorem digitChar_digit (n : Nat) : isAsciiDigit (digitChar n) = true := by
  unfold digitChar
  split_ifs <;> decide

/-- Every character of a rendered number is a digit. -/
theorem natCharsAux_digits : ∀ (fuel n : Nat), ∀ c ∈ natCharsAux fuel n,
    isAsciiDigit c = true := by
  intro fuel
  induction fuel with
  | zero =>
    intro n c hc
    cases hc
  | succ f ih =>
    intro n c hc
    unfold natCharsAux at hc
    by_cases hn : n < 10
    · rw [if_pos hn] at hc
      simp only [List.mem_singleton] at hc
      rw [hc]
      exact digitChar_digit n
    · rw [if_neg hn] at hc
      rcases List.mem_append.mp hc with h1 | h2
      · exact ih (n / 10) c h1
      · simp only [List.mem_singleton] at h2
        rw [h2]
        exact digitChar_digit _

/-- `natChars` is never empty. -/
theorem natChars_ne_nil (n : Nat) : natChars n ≠ [] := by
  unfold natChars natCharsAux
  by_cases hn : n < 10
  · simp [hn]
  · simp [hn]

/-- Digits are not SQL metacharacters. -/
theorem digit_noMeta (c : Char) (h : isAsciiDigit c = true) :
    ¬ c = SQ ∧ ¬ c = semi ∧ ¬ c = dash ∧ ¬ c = dollar := by
  simp only [isAsciiDigit, Bool.and_eq_true, decide_eq_true_eq] at h
  refine ⟨?_, ?_, ?_, ?_⟩ <;> intro he <;> rw [he] at h <;> revert h <;> decide

/-- A positional placeholder is safe SQL text: its dollar sign is followed by
a digit, and it ends with a digit. -/
theorem sqlStrSafe_placeholder (i : Nat) : SqlStrSafe (placeholder i) := by
  have hdata : (placeholder i).data = dollar :: natChars i := by
    rw [placeholder, String.data_append]
    rfl
  rw [SqlStrSafe, hdata]
  cases hnc : natChars i with
  | nil => exact absurd hnc (natChars_ne_nil i)
  | cons d ds =>
    have hdig : ∀ c ∈ d :: ds, isAsciiDigit c = true := by
      rw [← hnc]
      exact fun c hc => natCharsAux_digits (i + 1) i c hc
    refine ⟨?_, ?_, ?_⟩
    · intro c hc
      rcases List.mem_cons.mp hc with rfl | hc2
      · exact ⟨by decide, by decide, by decide⟩
      · have hm := digit_noMeta c (hdig c hc2)
        exact ⟨hm.1, hm.2.1, hm.2.2.1⟩
    · refine List.chain'_cons.mpr ⟨fun _ => hdig d (by simp), ?_⟩
      exact chain_of_noDollar (d :: ds) (fun c hc => (digit_noMeta c (hdig c hc)).2.2.2)
    · intro c hc
      rw [List.getLast?_cons_cons] at hc
      exact (digit_noMeta c (hdig c (List.mem_of_mem_getLast? hc))).2.2.2

/-- `joinSep` preserves SQL text safety. -/
theorem sqlStrSafe_joinSep (sep : String) (hsep : SqlStrSafe sep) :
    ∀ parts : List String, (∀ p ∈ parts, SqlStrSafe p) →
      SqlStrSafe (joinSep sep parts) := by
  intro parts
  induction parts with
  | nil =>
    intro _
    exact sqlStrSafe_of_frag "" (by decide)
  | cons x parts ih =>
    intro hp
    cases parts with
    | nil => exact hp x (by simp)
    | cons y rest =>
      show SqlStrSafe (x ++ sep ++ joinSep sep (y :: rest))
      exact sqlStrSafe_append _ _
        (sqlStrSafe_append _ _ (hp x (by simp)) hsep)
        (ih (fun p hm => hp p (by simp [hm])))

/-- Text satisfying the placeholder adjacency relation has no two adjacent
dollar signs. -/
theorem chain_no_double_dollar : ∀ l : List Char, l.Chain' metaSafeRel →
    ([dollar, dollar] <:+: l) → False := by
  intro l hch hinf
  obtain ⟨s, t, hst⟩ := hinf
  rw [← hst] at hch
  clear hst
  induction s with
  | nil =>
    simp only [List.nil_append] at hch
    exact absurd ((List.chain'_cons.mp hch).1 rfl) (by decide)
  | cons c s ih =>
    exact ih ((List.chain'_cons'.mp (by simpa using hch)).2)

/-- A value containing a SQL metacharacter can never occur as a substring of
safe SQL text. -/
theorem sqlStrSafe_meta_not_substring {s : String} (hs : SqlStrSafe s) (v : Value)
    (hv : hasSqlMeta v) : ¬ v.data <:+: s.data := by
  intro hinf
  rcases hv with h | h | h | h
  · exact (hs.1 SQ (hinf.subset h)).1 rfl
  · exact (hs.1 semi (hinf.subset h)).2.1 rfl
  · exact (hs.1 dash ((h.trans hinf).subset (by simp))).2.2 rfl
  · exact chain_no_double_dollar s.data hs.2.1 (h.trans hinf)

/-- All placeholders in a run are safe SQL text. -/
theorem sqlStrSafe_placeholdersFrom : ∀ (start n : Nat),
    ∀ p ∈ placeholdersFrom start n, SqlStrSafe p := by
  intro start n
  induction n generalizing start with
  | zero =>
    intro p hp
    cases hp
  | succ m ih =>
    intro p hp
    rcases List.mem_cons.mp hp with rfl | hp2
    · exact sqlStrSafe_placeholder start
    · exact ih (start + 1) p hp2

/-- Every SET fragment built from pattern-valid keys is safe SQL text. -/
theorem sqlStrSafe_setFragsFrom : ∀ (values : Row) (idx : Nat),
    (∀ kv ∈ values, matchesIdentPattern kv.1 = true) →
    ∀ f ∈ setFragsFrom values idx, SqlStrSafe f := by
  intro values
  induction values with
  | nil =>
    intro idx _ f hf
    cases hf
  | cons kv rest ih =>
    intro idx hk f hf
    obtain ⟨col, v⟩ := kv
    rcases List.mem_cons.mp hf with rfl | hf2
    · exact sqlStrSafe_append _ _
        (sqlStrSafe_append _ _ (sqlStrSafe_quoteId col (hk (col, v) (by simp)))
          (sqlStrSafe_of_frag " = " (by decide)))
        (sqlStrSafe_placeholder idx)
    · exact ih (idx + 1) (fun x hx => hk x (by simp [hx])) f hf2

/-- On a fully valid payload, `updateSetBuild` produces the SET fragments
determined by the keys, the values in order, and the next parameter index. -/
theorem updateSetBuild_valid (allowed : List String) :
    ∀ (values : Row) (idx : Nat), rowValid allowed values = true →
      updateSetBuild allowed values idx =
        .ok (setFragsFrom values idx, values.map (fun kv => kv.2),
             idx + values.length) := by
  intro values
  induction values with
  | nil =>
    intro idx _
    rfl
  | cons kv rest ih =>
    intro idx hv
    obtain ⟨col, v⟩ := kv
    simp only [rowValid, List.all_cons, Bool.and_eq_true] at hv
    have hrest := ih (idx + 1) hv.2
    unfold updateSetBuild
    rw [if_pos hv.1, hrest]
    have harith : idx + 1 + rest.length = idx + (rest.length + 1) := by omega
    rw [harith]
    rfl


/-- The optional RETURNING fragment is safe SQL text. -/
theorem sqlStrSafe_returningFrag (returning : Bool) :
    SqlStrSafe (if returning then "RETURNING *" else "") := by
  cases returning
  · exact sqlStrSafe_of_frag "" (by decide)
  · exact sqlStrSafe_of_frag "RETURNING *" (by decide)

/-- The INSERT template is safe SQL text whenever the table is a valid
identifier and the column and placeholder fragments are safe. -/
theorem sqlStrSafe_insertSqlText (table : String) (cols ps : List String)
    (returning : Bool) (htab : matchesIdentPattern table = true)
    (hcols : ∀ c ∈ cols, SqlStrSafe c) (hps : ∀ p ∈ ps, SqlStrSafe p) :
    SqlStrSafe (insertSqlText table cols ps returning) := by
  unfold insertSqlText
  refine sqlStrSafe_append _ _ (sqlStrSafe_append _ _ (sqlStrSafe_append _ _
    (sqlStrSafe_append _ _ (sqlStrSafe_append _ _ (sqlStrSafe_append _ _
      (sqlStrSafe_append _ _ (sqlStrSafe_append _ _
        (sqlStrSafe_of_frag "\n        INSERT INTO " (by decide))
        (sqlStrSafe_quoteId table htab))
        (sqlStrSafe_of_frag " (" (by decide)))
        (sqlStrSafe_joinSep ", " (sqlStrSafe_of_frag ", " (by decide)) cols hcols))
        (sqlStrSafe_of_frag ")\n        VALUES (" (by decide)))
        (sqlStrSafe_joinSep ", " (sqlStrSafe_of_frag ", " (by decide)) ps hps))
        (sqlStrSafe_of_frag ")\n        " (by decide)))
        (sqlStrSafe_returningFrag returning))
        (sqlStrSafe_of_frag "\n      " (by decide))

/-- The WHERE builder appends exactly the filter values, in order, and all
its fragments are safe SQL text when the filter columns are pattern-valid. -/
theorem buildWhereParts_spec : ∀ (filters : List ParsedFilter) (start : Nat),
    (buildWhereParts filters start).2 = filterValuesOf filters ∧
    ((∀ f ∈ filters, matchesIdentPattern f.column = true) →
      ∀ frag ∈ (buildWhereParts filters start).1, SqlStrSafe frag) := by
  intro filters
  induction filters with
  | nil =>
    intro start
    exact ⟨rfl, fun _ frag hf => absurd hf (by simp [buildWhereParts])⟩
  | cons f rest ih =>
    intro start
    obtain ⟨col, op, val⟩ := f
    cases val with
    | one v =>
      constructor
      · show v :: (buildWhereParts rest (start + 1)).2 = v :: filterValuesOf rest
        rw [(ih (start + 1)).1]
      · intro hcols frag hf
        have hf2 : frag = quoteId col ++ " " ++ opSql op ++ " " ++ placeholder start ∨
            frag ∈ (buildWhereParts rest (start + 1)).1 := List.mem_cons.mp hf
        rcases hf2 with rfl | hf3
        · refine sqlStrSafe_append _ _ (sqlStrSafe_append _ _ (sqlStrSafe_append _ _
            (sqlStrSafe_append _ _
              (sqlStrSafe_quoteId col (hcols ⟨col, op, FilterVal.one v⟩ (by simp)))
              (sqlStrSafe_of_frag " " (by decide)))
            ?_)
            (sqlStrSafe_of_frag " " (by decide)))
            (sqlStrSafe_placeholder start)
          cases op <;> exact sqlStrSafe_of_frag _ (by decide)
        · exact (ih (start + 1)).2 (fun g hg => hcols g (by simp [hg])) frag hf3
    | many vs =>
      constructor
      · show vs ++ (buildWhereParts rest (start + vs.length)).2 =
          vs ++ filterValuesOf rest
        rw [(ih (start + vs.length)).1]
      · intro hcols frag hf
        have hf2 : frag = quoteId col ++ " IN (" ++
            joinSep ", " (placeholdersFrom start vs.length) ++ ")" ∨
            frag ∈ (buildWhereParts rest (start + vs.length)).1 := List.mem_cons.mp hf
        rcases hf2 with rfl | hf3
        · exact sqlStrSafe_append _ _ (sqlStrSafe_append _ _ (sqlStrSafe_append _ _
            (sqlStrSafe_quoteId col (hcols ⟨col, op, FilterVal.many vs⟩ (by simp)))
            (sqlStrSafe_of_frag " IN (" (by decide)))
            (sqlStrSafe_joinSep ", " (sqlStrSafe_of_frag ", " (by decide))
              (placeholdersFrom start vs.length)
              (sqlStrSafe_placeholdersFrom start vs.length)))
            (sqlStrSafe_of_frag ")" (by decide))
        · exact (ih (start + vs.length)).2 (fun g hg => hcols g (by simp [hg])) frag hf3

/-- The rendered WHERE clause is safe SQL text and carries exactly the filter
values. -/
theorem buildWhereClause_spec (filters : List ParsedFilter) (start : Nat)
    (hcols : ∀ f ∈ filters, matchesIdentPattern f.column = true) :
    (buildWhereClause filters start).2 = filterValuesOf filters ∧
    SqlStrSafe (buildWhereClause filters start).1 := by
  constructor
  · show (buildWhereParts filters start).2 = filterValuesOf filters
    exact (buildWhereParts_spec filters start).1
  · show SqlStrSafe (if (buildWhereParts filters start).1.isEmpty then ""
      else "WHERE " ++ joinSep " AND " (buildWhereParts filters start).1)
    by_cases he : (buildWhereParts filters start).1.isEmpty = true
    · rw [if_pos he]
      exact sqlStrSafe_of_frag "" (by decide)
    · rw [if_neg he]
      exact sqlStrSafe_append _ _ (sqlStrSafe_of_frag "WHERE " (by decide))
        (sqlStrSafe_joinSep " AND " (sqlStrSafe_of_frag " AND " (by decide)) _
          ((buildWhereParts_spec filters start).2 hcols))

/-- The UPDATE template is safe SQL text given safe SET fragments and a safe
WHERE clause. -/
theorem sqlStrSafe_updateSqlText (table : String) (setClauses : List String)
    (whereClause : String) (returning : Bool)
    (htab : matchesIdentPattern table = true)
    (hset : ∀ c ∈ setClauses, SqlStrSafe c) (hw : SqlStrSafe whereClause) :
    SqlStrSafe (updateSqlText table setClauses whereClause returning) := by
  unfold updateSqlText
  refine sqlStrSafe_append _ _ (sqlStrSafe_append _ _ (sqlStrSafe_append _ _
    (sqlStrSafe_append _ _ (sqlStrSafe_append _ _ (sqlStrSafe_append _ _
      (sqlStrSafe_append _ _ (sqlStrSafe_append _ _
        (sqlStrSafe_of_frag "\n      UPDATE " (by decide))
        (sqlStrSafe_quoteId table htab))
        (sqlStrSafe_of_frag "\n      SET " (by decide)))
        (sqlStrSafe_joinSep ", " (sqlStrSafe_of_frag ", " (by decide)) setClauses hset))
        (sqlStrSafe_of_frag "\n      " (by decide)))
        hw)
        (sqlStrSafe_of_frag "\n      " (by decide)))
        (sqlStrSafe_returningFrag returning))
        (sqlStrSafe_of_frag "\n    " (by decide))

set_option maxRecDepth 4000 in
/-- C1 counterexample: the claim says the rendered SQL never contains the raw
value as a substring, for every value; but inserting the value `$1` renders
SQL whose text contains `$1` (the positional placeholder), even though the
value itself is only ever passed in the parameter vector. -/
theorem C1_counterexample_dollar_value :
    (crudInsert "p" "t" [[("a", "$1")]] false sampleState).1 = .ok [] ∧
    (crudInsert "p" "t" [[("a", "$1")]] false sampleState).2.log =
      [⟨"p", Role.app, introspectionSql, []⟩,
       insertStmtFor "p" "t" false [("a", "$1")]] ∧
    (insertStmtFor "p" "t" false [("a", "$1")]).params = ["$1"] ∧
    ("$1" : String).data <:+: (insertStmtFor "p" "t" false [("a", "$1")]).sql.data := by
  refine ⟨rfl, by decide, by decide, by decide⟩

/-- C1 amended: the SQL text of insert and update is determined by the keys
of the payload and the filter shapes alone; every caller-supplied value is
appended to the parameter vector, in order, and referenced in the text only by
a positional placeholder.  Consequently a value containing one of the SQL
metacharacter strings (single quote, semicolon, `--`, `$$`) never occurs as a
substring of the rendered SQL; a metacharacter-free value may coincide with
SQL text such as a placeholder. -/
theorem C1_insert_update_parameterized :
    (∀ (table : String) (allowed : List String) (row : Row) (returning : Bool),
      matchesIdentPattern table = true →
      (∀ kv ∈ row, matchesIdentPattern kv.1 = true) →
      rowValid allowed row = true →
      insertRowBuild allowed row 1 =
        .ok (row.map fun kv => quoteId kv.1, row.map fun kv => kv.2,
             placeholdersFrom 1 row.length) ∧
      (∀ v : Value, hasSqlMeta v →
        ¬ v.data <:+: (insertSqlText table (row.map fun kv => quoteId kv.1)
            (placeholdersFrom 1 row.length) returning).data))
  ∧ (∀ (table : String) (allowed : List String) (values : Row)
        (filters : List ParsedFilter) (returning : Bool),
      matchesIdentPattern table = true →
      (∀ kv ∈ values, matchesIdentPattern kv.1 = true) →
      (∀ f ∈ filters, matchesIdentPattern f.column = true) →
      rowValid allowed values = true →
      updateSetBuild allowed values 1 =
        .ok (setFragsFrom values 1, values.map fun kv => kv.2, 1 + values.length) ∧
      (buildWhereClause filters (1 + values.length)).2 = filterValuesOf filters ∧
      (∀ v : Value, hasSqlMeta v →
        ¬ v.data <:+: (updateSqlText table (setFragsFrom values 1)
            (buildWhereClause filters (1 + values.length)).1 returning).data)) := by
  constructor
  · intro table allowed row returning htab hkeys hvalid
    refine ⟨insertRowBuild_valid allowed row 1 hvalid, ?_⟩
    intro v hv
    apply sqlStrSafe_meta_not_substring _ v hv
    apply sqlStrSafe_insertSqlText table _ _ returning htab
    · intro c hc
      rcases List.mem_map.mp hc with ⟨kv, hkv, rfl⟩
      exact sqlStrSafe_quoteId kv.1 (hkeys kv hkv)
    · exact sqlStrSafe_placeholdersFrom 1 row.length
  · intro table allowed values filters returning htab hkeys hfil hvalid
    refine ⟨updateSetBuild_valid allowed values 1 hvalid,
      (buildWhereClause_spec filters (1 + values.length) hfil).1, ?_⟩
    intro v hv
    apply sqlStrSafe_meta_not_substring _ v hv
    apply sqlStrSafe_updateSqlText table _ _ returning htab
    · exact sqlStrSafe_setFragsFrom values 1 hkeys
    · exact (buildWhereClause_spec filters (1 + values.length) hfil).2

/-- Witness for the amended C1: a concrete insert row and a value consisting
of a single quote, which cannot occur in the rendered SQL. -/
theorem C1_insert_update_parameterized_witness :
    insertRowBuild ["a"] [("a", "x")] 1 =
      .ok ([quoteId "a"], ["x"], [placeholder 1]) ∧
    ¬ (String.mk [SQ]).data <:+:
      (insertSqlText "t" [quoteId "a"] [placeholder 1] false).data := by
  have h := C1_insert_update_parameterized.1 "t" ["a"] [("a", "x")] false
    (by decide) (by decide) (by decide)
  exact ⟨h.1, h.2 (String.mk [SQ]) (Or.inl (by decide))⟩
end AtlasHub
